import Mathlib

/-!
Shallow embedding of the intelligent Excel parser in
`src/app/analysis/excel_parser.py` (functions `get_row_score`,
`find_header_row_rule_based`, `HeaderFinder.find_header_row_semantic`,
`_clean_and_structure_data`, `intelligent_read_excel`).

Cells of the loaded worksheet grid are modelled by `Cell`: a missing value
(pandas `NaN`), a string, or a number (integers suffice for the data the
claims exercise).  A DataFrame is a list of column names together with rows
carrying their pandas integer index label.  The sentence-transformer model of
`HeaderFinder` is abstracted as an optional scoring oracle (its numeric
embedding pipeline is external to the repository); everything else is
translated directly from the Python source.

Scores are exact rationals.  To keep every definition evaluable inside the
kernel, rational arithmetic is expressed through `mkRat` (`ratAdd`, `ratSub`,
`ratDivNat`, `sumRat`) and the Python string primitives (`in`, `strip`,
`replace`, `str`, numeric parsing) are implemented structurally on character
lists; bridge lemmas below identify the rational helpers with the ordinary
field operations on `Rat`.
-/

/-- `mkRat`-based addition (equal to `a + b`, see `ratAdd_eq`). -/
def ratAdd (a b : Rat) : Rat := mkRat (a.num * b.den + b.num * a.den) (a.den * b.den)

/-- `mkRat`-based subtraction (equal to `a - b`, see `ratSub_eq`). -/
def ratSub (a b : Rat) : Rat := mkRat (a.num * b.den - b.num * a.den) (a.den * b.den)

/-- `mkRat`-based division by a natural count (equal to `a / n`, see
`ratDivNat_eq`). -/
def ratDivNat (a : Rat) (n : Nat) : Rat := mkRat a.num (a.den * n)

/-- Sum of a list of rationals through `ratAdd`. -/
def sumRat : List Rat → Rat
  | [] => 0
  | q :: qs => ratAdd q (sumRat qs)

/-- Does the character-list pattern occur at the head? -/
def beginsWith : List Char → List Char → Bool
  | _, [] => true
  | [], _ :: _ => false
  | c :: cs, p :: ps => c == p && beginsWith cs ps

/-- Occurrence of a character-list pattern anywhere in a character list. -/
def containsChars (pat : List Char) : List Char → Bool
  | [] => pat.isEmpty
  | c :: cs => beginsWith (c :: cs) pat || containsChars pat cs

/-- Python's `pat in s` substring test. -/
def containsSub (s pat : String) : Bool := containsChars pat.toList s.toList

/-- Python `str.strip()` (whitespace removed from both ends). -/
def pyStrip (s : String) : String :=
  String.mk (((s.toList.dropWhile Char.isWhitespace).reverse.dropWhile
    Char.isWhitespace).reverse)

/-- `.replace('\n', '')` on a string. -/
def removeNewlines (s : String) : String :=
  String.mk (s.toList.filter (fun c => c != '\n'))

/-- `' '.join(parts)`. -/
def joinSpaceSep : List String → String
  | [] => ""
  | [s] => s
  | s :: rest => s ++ " " ++ joinSpaceSep rest

def allDigits : List Char → Bool
  | [] => true
  | c :: cs => c.isDigit && allDigits cs

def digitsValue : List Char → Nat → Nat
  | [], acc => acc
  | c :: cs, acc => digitsValue cs (acc * 10 + (c.toNat - '0'.toNat))

/-- Parse a non-empty string of decimal digits. -/
def pyParseNat (s : String) : Option Nat :=
  if s.toList.isEmpty then none
  else if allDigits s.toList then some (digitsValue s.toList 0) else none

/-- Decimal digits of `n`, computed with a fuel argument to stay structural. -/
def natDigits : Nat → Nat → List Char
  | 0, _ => []
  | fuel + 1, n =>
    if n < 10 then [Nat.digitChar n]
    else natDigits fuel (n / 10) ++ [Nat.digitChar (n % 10)]

/-- Python `str` of an integer. -/
def pyIntToString (n : Int) : String :=
  match n with
  | Int.ofNat m => String.mk (natDigits (m + 1) m)
  | Int.negSucc m => String.mk ('-' :: natDigits (m + 2) (m + 1))

inductive Cell where
  | empty : Cell
  | str (s : String) : Cell
  | num (n : Int) : Cell
deriving DecidableEq

/-- `pd.notna` on a cell. -/
def Cell.notna : Cell → Bool
  | Cell.empty => false
  | _ => true

/-- Python `str(item)` for the cell values that reach it (the source only
applies it to non-missing cells). -/
def Cell.toStr : Cell → String
  | Cell.empty => ""
  | Cell.str s => s
  | Cell.num n => pyIntToString n

/-- `isinstance(item, str)`. -/
def Cell.isStr : Cell → Bool
  | Cell.str _ => true
  | _ => false

/-- The keyword/weight table of `get_row_score` (excel_parser.py lines 122-125). -/
def keywords : List (String × Int) :=
  [("项目", 3), ("名称", 3), ("单价", 3), ("合价", 3), ("工程量", 3), ("单位", 2),
   ("序号", 2), ("功能区", 1), ("内容", 1), ("规则", 1), ("方式", 1), ("备注", 1)]

/-- Contribution of one non-missing cell to `get_row_score`: keyword weights,
a 0.5 bonus for string-typed cells, a 10-point penalty for text longer than
50 characters. -/
def cellScore (c : Cell) : Rat :=
  let s := c.toStr
  let kw : Int := (keywords.map (fun p => if containsSub s p.1 then p.2 else 0)).sum
  ratSub (ratAdd (mkRat kw 1) (if c.isStr then mkRat 1 2 else 0))
    (if s.length > 50 then (10 : Rat) else 0)

/-- `get_row_score` (excel_parser.py lines 114-147): rows with at most one
non-missing cell score 0, otherwise the accumulated score is normalised by
the number of non-missing cells. -/
def get_row_score (row : List Cell) : Rat :=
  let ne := row.filter Cell.notna
  if ne.length ≤ 1 then 0
  else ratDivNat (sumRat (ne.map cellScore)) ne.length

/-- One step of the `np.argmax` scan: adopt a later, strictly greater score. -/
def argmaxStep (b : Nat × Rat) (p : Nat × Rat) : Nat × Rat :=
  if p.2 > b.2 then (p.1 + 1, p.2) else b

/-- `np.argmax`: index of the first occurrence of the maximum. -/
def argmaxIdx (l : List Rat) : Nat :=
  match l with
  | [] => 0
  | x :: xs => (xs.enum.foldl argmaxStep (0, x)).1

/-- `find_header_row_rule_based` (excel_parser.py lines 149-164): score the
first `maxScan` rows, return the best row index, or -1 when there are no
rows or the best score is below the empirical threshold 2.0.  The source
default for `max_rows_to_scan` is 20. -/
def find_header_row_rule_based (df : List (List Cell)) (maxScan : Nat) : Int :=
  let scores := (df.take maxScan).map get_row_score
  if scores.isEmpty then -1
  else if scores.getD (argmaxIdx scores) 0 < 2 then -1
  else Int.ofNat (argmaxIdx scores)

/-- Abstraction of the loaded sentence-transformer together with the golden
header embeddings: maps a candidate row's cleaned non-empty cell texts to
the row score `mean(best cosine matches) * (len(texts)/len(GOLDEN_HEADERS))`
computed in `find_header_row_semantic`.  The numeric embedding pipeline
lives in external libraries, so it is kept opaque. -/
def SemanticModel : Type := List String → Rat

/-- The cleaned cell texts of a candidate row:
`[str(cell).strip() for cell in row.dropna().tolist() if str(cell).strip()]`. -/
def rowTexts (row : List Cell) : List String :=
  ((row.filter Cell.notna).map (fun c => pyStrip c.toStr)).filter (fun s => s != "")

/-- The `candidate_scores` list of `find_header_row_semantic`: row index and
model score for every scanned row with at least three cleaned texts. -/
def semanticCands (score : SemanticModel) (df : List (List Cell)) (maxScan : Nat) :
    List (Nat × Rat) :=
  (df.take maxScan).enum.filterMap (fun p =>
    let texts := rowTexts p.2
    if texts.length < 3 then none else some (p.1, score texts))

/-- Python's `max(..., key=score)`: keep the earlier candidate on ties. -/
def pickBest (b q : Nat × Rat) : Nat × Rat := if q.2 > b.2 then q else b

/-- `HeaderFinder.find_header_row_semantic` (excel_parser.py lines 60-108):
-1 when the model is unavailable, rows with fewer than three cleaned texts
are skipped, and the best-scoring candidate is returned only when its score
reaches the 0.3 confidence threshold. -/
def find_header_row_semantic (model : Option SemanticModel)
    (df : List (List Cell)) (maxScan : Nat) : Int :=
  match model with
  | none => -1
  | some score =>
    match semanticCands score df maxScan with
    | [] => -1
    | c :: cs =>
      let best := cs.foldl pickBest c
      if best.2 < mkRat 3 10 then -1 else Int.ofNat best.1

/-- `df_raw.iloc[header_row_index:header_row_index + 3]` — the header block
is always the next (up to) three rows from the header start row
(excel_parser.py line 263). -/
def headerBlock (g : List (List Cell)) (h : Nat) : List (List Cell) :=
  (g.drop h).take 3

/-- `str(cell).strip().replace('\n', '')` used on header cells. -/
def cleanHeaderCell (c : Cell) : String := removeNewlines (pyStrip c.toStr)

/-- The multi-row header merge of `intelligent_read_excel` (lines 266-277):
walk the first block row left to right keeping the last non-blank top-level
label, append every non-missing sub-row cell of the column, and join with
single spaces. -/
def mergeCols (block : List (List Cell)) : List String :=
  let row0 := block.headD []
  let rest := block.drop 1
  (row0.enum.foldl (fun (acc : List String × String) p =>
    let lv := if p.2.notna && (pyStrip p.2.toStr != "") then cleanHeaderCell p.2 else acc.2
    let subs := rest.filterMap (fun r =>
      let c := r.getD p.1 Cell.empty
      if c.notna then some (cleanHeaderCell c) else none)
    (acc.1 ++ [pyStrip (joinSpaceSep (lv :: subs))], lv)) ([], "")).1

def lookupCount : List (String × Nat) → String → Option Nat
  | [], _ => none
  | p :: rest, k => if p.1 = k then some p.2 else lookupCount rest k

def bumpCount : List (String × Nat) → String → List (String × Nat)
  | [], _ => []
  | p :: rest, k => if p.1 = k then (p.1, p.2 + 1) :: rest else p :: bumpCount rest k

/-- Duplicate column disambiguation of `intelligent_read_excel`
(lines 280-288): repeated names get suffixes `_1`, `_2`, ... in order of
occurrence. -/
def dedupColumns (cols : List String) : List String :=
  (cols.foldl (fun (acc : List String × List (String × Nat)) col =>
    match lookupCount acc.2 col with
    | some k => (acc.1 ++ [col ++ "_" ++ pyIntToString (Int.ofNat (k + 1))], bumpCount acc.2 col)
    | none => (acc.1 ++ [col], (col, 0) :: acc.2)) ([], [])).1

/-- Pad (or cut) a raw row to the DataFrame width; `pd.read_excel` always
yields a rectangular frame, which this models for possibly ragged grids. -/
def padRow (w : Nat) (r : List Cell) : List Cell :=
  r.take w ++ List.replicate (w - r.length) Cell.empty

/-- A pandas DataFrame: named columns plus rows carrying their integer index
label. -/
structure DF where
  cols : List String
  rows : List (Nat × List Cell)
deriving DecidableEq

/-- The `structured_metadata` dict produced by `_clean_and_structure_data`. -/
structure StructuredMeta where
  l1_column : Option String := none
  l2_column : Option String := none
deriving DecidableEq

/-- `df.dropna(how='all')`: keep rows with at least one non-missing cell. -/
def dropAllNaRows (rows : List (Nat × List Cell)) : List (Nat × List Cell) :=
  rows.filter (fun r => r.2.any Cell.notna)

/-- Index of the first column name satisfying `p`
(`next((col for col in df.columns if ...), None)`). -/
def firstIdxWhere (p : String → Bool) : List String → Option Nat
  | [] => none
  | c :: cs => if p c then some 0 else (firstIdxWhere p cs).map (· + 1)

/-- The values of column `j` (missing cells read as `NaN`). -/
def colValues (rows : List (Nat × List Cell)) (j : Nat) : List Cell :=
  rows.map (fun r => r.2.getD j Cell.empty)

/-- Overwrite column `j` with the given values (`df[col] = vals`). -/
def setCol (rows : List (Nat × List Cell)) (j : Nat) (vals : List Cell) :
    List (Nat × List Cell) :=
  (rows.zip vals).map (fun p => (p.1.1, p.1.2.set j p.2))

/-- Models `pd.to_numeric` on one cell for the cell shapes occurring here:
numbers pass through, strings of decimal digits parse, everything else
(including `NaN`) fails. -/
def parseNumCell : Cell → Option Int
  | Cell.empty => none
  | Cell.num n => some n
  | Cell.str s => (pyParseNat s).map Int.ofNat

/-- `pd.to_numeric(cell, errors='coerce')`: unconvertible values become `NaN`. -/
def coerceCell (c : Cell) : Cell :=
  match parseNumCell c with
  | some n => Cell.num n
  | none => Cell.empty

/-- `pd.to_numeric(column, errors='ignore')`: the column converts only when
every non-missing value is convertible, otherwise it is returned unchanged. -/
def toNumericIgnoreCol (col : List Cell) : List Cell :=
  if col.all (fun c => !c.notna || (parseNumCell c).isSome) then col.map coerceCell
  else col

/-- `df['is_data_row']` (lines 182-192): with no serial column every row is a
data row, otherwise a row is a data row when its serial cell converts to a
number. -/
def isDataFlags (serialIdx : Option Nat) (rows : List (Nat × List Cell)) : List Bool :=
  match serialIdx with
  | none => rows.map (fun _ => true)
  | some j => rows.map (fun r => (parseNumCell (r.2.getD j Cell.empty)).isSome)

/-- `Series.fillna(method='ffill')` starting from a given previous value. -/
def ffillFrom (last : Cell) : List Cell → List Cell
  | [] => []
  | c :: cs =>
    (if c.notna then c else last) :: ffillFrom (if c.notna then c else last) cs

def ffill (l : List Cell) : List Cell := ffillFrom Cell.empty l

/-- The per-column `errors='ignore'` conversion loop of step 5 (lines
221-224): every column whose name differs from the serial column's name is
converted. -/
def applyIgnoreAll (cols : List String) (skip : Option String)
    (rows : List (Nat × List Cell)) : List (Nat × List Cell) :=
  (List.range cols.length).foldl (fun rs j =>
    if skip == some (cols.getD j "") then rs
    else setCol rs j (toNumericIgnoreCol (colValues rs j))) rows

/-- The L1 seed of step 3 (line 208): the 项目名称 value on non-data rows,
`NaN` on data rows. -/
def l1Seed (k : Nat) (rows1 : List (Nat × List Cell)) (flags : List Bool) : List Cell :=
  (rows1.zip flags).map (fun p => if p.2 then Cell.empty else p.1.2.getD k Cell.empty)

/-- Step 3 (lines 204-212): when a 项目名称 column exists at position `k`,
append the forward-filled 功能区_L1 column. -/
def addL1 (pnIdx? : Option Nat) (flags : List Bool)
    (rows1 : List (Nat × List Cell)) : List (Nat × List Cell) :=
  match pnIdx? with
  | none => rows1
  | some k => (rows1.zip (ffill (l1Seed k rows1 flags))).map
      (fun p => (p.1.1, p.1.2 ++ [p.2]))

/-- Step 4 (lines 216-217): re-coerce the serial column (looked up again by
name in the current columns) to numeric with `errors='coerce'`.  If the name
is gone (it was renamed to 功能区_L2) the pandas original raises a
`KeyError`; that pathological overlap is modelled as a no-op. -/
def coerceSerial (serialName? : Option String) (cols3 : List String)
    (rows3 : List (Nat × List Cell)) : List (Nat × List Cell) :=
  match serialName? with
  | none => rows3
  | some s =>
    match firstIdxWhere (fun c => c == s) cols3 with
    | none => rows3
    | some j => rows3.map (fun r => (r.1, r.2.set j (coerceCell (r.2.getD j Cell.empty))))

/-- `df.reset_index(drop=True)`: relabel rows 0,1,2,... -/
def resetIndex (rows : List (Nat × List Cell)) : List (Nat × List Cell) :=
  rows.enum.map (fun p => (p.1, p.2.2))

/-- `_clean_and_structure_data` (excel_parser.py lines 170-229), translated
step by step: drop all-missing rows; classify rows via the first column whose
name contains 序号; rename the first 功能区 column to 功能区_L2; seed 功能区_L1
from the 项目名称 column on non-data rows and forward-fill it; coerce the
serial column to numeric; run the `errors='ignore'` conversion on the other
columns; reset the index.  The temporary `is_data_row` column that the source
adds and then drops is kept as the side list `isDataFlags`. -/
def clean_and_structure_data (df : DF) : DF × StructuredMeta :=
  let rows1 := dropAllNaRows df.rows
  if rows1.isEmpty then ({ cols := df.cols, rows := rows1 }, {}) else
  let serialIdx? := firstIdxWhere (fun c => containsSub c "序号") df.cols
  let serialName? := serialIdx?.map (fun j => df.cols.getD j "")
  let flags := isDataFlags serialIdx? rows1
  let l2Idx? := firstIdxWhere (fun c => containsSub c "功能区") df.cols
  let cols2 := match l2Idx? with
    | none => df.cols
    | some j => df.cols.set j "功能区_L2"
  let pnIdx? := firstIdxWhere (fun c => containsSub c "项目名称") cols2
  let cols3 := match pnIdx? with
    | none => cols2
    | some _ => cols2 ++ ["功能区_L1"]
  let rows6 := resetIndex (applyIgnoreAll cols3 serialName?
    (coerceSerial serialName? cols3 (addL1 pnIdx? flags rows1)))
  ({ cols := cols3, rows := rows6 },
   { l1_column := pnIdx?.map (fun _ => "功能区_L1"),
     l2_column := l2Idx?.map (fun _ => "功能区_L2") })

/-- The metadata dict of `intelligent_read_excel`. -/
structure Metadata where
  source_sheet : Option (String ⊕ Nat) := none
  error : Option String := none
  header_row : Option Nat := none
  columns_found : Option (List String) := none
  l1_column : Option String := none
  l2_column : Option String := none
deriving DecidableEq

/-- `intelligent_read_excel` (excel_parser.py lines 235-299).  The
`pd.read_excel` call is abstracted as its outcome `readResult` (raw grid or
failure message); the optional semantic model stands for the state of the
`HeaderFinder` after construction. -/
def intelligent_read_excel (model : Option SemanticModel)
    (sheet : Option (String ⊕ Nat))
    (readResult : Except String (List (List Cell))) : Option DF × Metadata :=
  match readResult with
  | Except.error e =>
    (none, { source_sheet := sheet, error := some ("读取Excel文件失败: " ++ e) })
  | Except.ok df_raw =>
    let h1 := find_header_row_semantic model df_raw 20
    let h := if h1 == -1 then find_header_row_rule_based df_raw 20 else h1
    if h == -1 then
      (none, { source_sheet := sheet, error := some "无法自动定位表头。请检查文件格式。" })
    else
      let hn := h.toNat
      let block := headerBlock df_raw hn
      let finalCols := dedupColumns (mergeCols block)
      let dataRows := (df_raw.enum.drop (hn + block.length)).map
        (fun p => (p.1, padRow finalCols.length p.2))
      let res := clean_and_structure_data { cols := finalCols, rows := dataRows }
      (some res.1,
       { source_sheet := sheet, header_row := some hn,
         columns_found := some finalCols,
         l1_column := res.2.l1_column, l2_column := res.2.l2_column })

/-- The outcome of the `pd.read_excel` call of line 242: an exception (caught
by the surrounding `try`), the single DataFrame produced when `sheet_name`
names one sheet, or — for `sheet_name=None`, the declared default — the dict
of all sheets that pandas returns in that case. -/
inductive ReadOutcome where
  | fail (msg : String)
  | single (g : List (List Cell))
  | multi (sheets : List (List (List Cell)))
deriving DecidableEq

/-- `_clean_and_structure_data` with the exception of line 217 kept: step 4
re-reads the serial column by its pre-rename name (`df[serial_col]`), and if
that name was consumed by the 功能区_L2 rename of line 200 — the first 序号
column is also the first 功能区 column — pandas raises a `KeyError` that
nothing catches.  `Except.error` models the escaping exception; on every
other input the result is `Except.ok` of `clean_and_structure_data`. -/
def clean_and_structure_data_exc (df : DF) : Except String (DF × StructuredMeta) :=
  let rows1 := dropAllNaRows df.rows
  if rows1.isEmpty then Except.ok ({ cols := df.cols, rows := rows1 }, {}) else
  let serialIdx? := firstIdxWhere (fun c => containsSub c "序号") df.cols
  let serialName? := serialIdx?.map (fun j => df.cols.getD j "")
  let l2Idx? := firstIdxWhere (fun c => containsSub c "功能区") df.cols
  let cols2 := match l2Idx? with
    | none => df.cols
    | some j => df.cols.set j "功能区_L2"
  let pnIdx? := firstIdxWhere (fun c => containsSub c "项目名称") cols2
  let cols3 := match pnIdx? with
    | none => cols2
    | some _ => cols2 ++ ["功能区_L1"]
  match serialName? with
  | none => Except.ok (clean_and_structure_data df)
  | some s =>
    if (firstIdxWhere (fun c => c == s) cols3).isNone then
      Except.error ("KeyError: " ++ s)
    else Except.ok (clean_and_structure_data df)

/-- `intelligent_read_excel` with its two uncaught exception paths restored;
`Except.error` models a Python exception escaping the function, returning
neither table nor metadata.  When `pd.read_excel` yields a dict (the
`sheet_name=None` default), the semantic finder either returns the sentinel
without touching it (no model) or raises `AttributeError` at `df.head`
(line 72); the rule-based finder then raises `AttributeError` at `df.iloc`
(line 153) unless the dict is empty, in which case its score list is empty
and it reports the sentinel.  With a single sheet the only exception source
is the `KeyError` of `_clean_and_structure_data` (line 217). -/
def intelligent_read_excel_exc (model : Option SemanticModel)
    (sheet : Option (String ⊕ Nat))
    (readResult : ReadOutcome) : Except String (Option DF × Metadata) :=
  match readResult with
  | ReadOutcome.fail e =>
    Except.ok (none, { source_sheet := sheet, error := some ("读取Excel文件失败: " ++ e) })
  | ReadOutcome.multi sheets =>
    match model with
    | some _ => Except.error "AttributeError: dict object has no attribute head"
    | none =>
      if sheets.isEmpty then
        Except.ok (none, { source_sheet := sheet, error := some "无法自动定位表头。请检查文件格式。" })
      else Except.error "AttributeError: dict object has no attribute iloc"
  | ReadOutcome.single df_raw =>
    let h1 := find_header_row_semantic model df_raw 20
    let h := if h1 == -1 then find_header_row_rule_based df_raw 20 else h1
    if h == -1 then
      Except.ok (none, { source_sheet := sheet, error := some "无法自动定位表头。请检查文件格式。" })
    else
      let hn := h.toNat
      let block := headerBlock df_raw hn
      let finalCols := dedupColumns (mergeCols block)
      let dataRows := (df_raw.enum.drop (hn + block.length)).map
        (fun p => (p.1, padRow finalCols.length p.2))
      match clean_and_structure_data_exc { cols := finalCols, rows := dataRows } with
      | Except.error e => Except.error e
      | Except.ok res =>
        Except.ok (some res.1,
         { source_sheet := sheet, header_row := some hn,
           columns_found := some finalCols,
           l1_column := res.2.l1_column, l2_column := res.2.l2_column })

/-! ### Concrete worksheets used by the claim theorems -/

def E : Cell := Cell.empty
def S : String → Cell := Cell.str
def N : Int → Cell := Cell.num

/-- A cost sheet with a one-row header, two blank rows, and a data region
mixing section-summary rows (non-numeric 序号, section label in 项目名称)
with ordinary data rows. -/
def exGrid : List (List Cell) :=
  [[S "序号", S "项目名称", S "功能区", S "单价"],
   [E, E, E, E],
   [E, E, E, E],
   [S "小计", S "地面", E, E],
   [N 1, S "A", S "x", N 10],
   [N 2, S "B", S "y", N 20],
   [N 3, S "C", S "z", N 30],
   [S "小计", S "天花", E, E],
   [N 4, S "D", S "w", N 40]]

/-- The table `intelligent_read_excel` returns for `exGrid`. -/
def exOut : DF :=
  { cols := ["序号", "项目名称", "功能区_L2", "单价", "功能区_L1"],
    rows := [(0, [E, S "地面", E, E, S "地面"]),
             (1, [N 1, S "A", S "x", N 10, S "地面"]),
             (2, [N 2, S "B", S "y", N 20, S "地面"]),
             (3, [N 3, S "C", S "z", N 30, S "地面"]),
             (4, [E, S "天花", E, E, S "天花"]),
             (5, [N 4, S "D", S "w", N 40, S "天花"])] }

/-- The metadata `intelligent_read_excel` returns for `exGrid`. -/
def exMeta : Metadata :=
  { source_sheet := none, error := none, header_row := some 0,
    columns_found := some ["序号", "项目名称", "功能区", "单价"],
    l1_column := some "功能区_L1", l2_column := some "功能区_L2" }

/-- A sheet with two physical header rows (names, then units) whose first
real data row sits immediately below them at row 2. -/
def exGridC3 : List (List Cell) :=
  [[S "序号", S "项目名称", S "单价", S "合价"],
   [E, S "个", S "元", S "元"],
   [N 1, S "A", N 10, N 10]]

/-- A sheet whose first header cell is 功能区序号: the merged first column
name contains both 序号 and 功能区, so the serial column found in step 2 of
the cleaning is renamed away in step 3 and the re-read of line 217 raises. -/
def crashGrid : List (List Cell) :=
  [[S "功能区序号", S "项目名称", S "单价", S "合价"],
   [E, S "个", S "元", S "元"],
   [N 1, S "A", N 10, N 10],
   [N 2, S "B", N 5, N 5]]

/-- A sheet whose data region starts with a plain data row, no summary row
above it. -/
def exGrid7 : List (List Cell) :=
  [[S "序号", S "项目名称", S "功能区", S "单价"],
   [E, E, E, E],
   [E, E, E, E],
   [N 1, S "A", S "x", N 10]]

/-- The table returned for `exGrid7`. -/
def exOut7 : DF :=
  { cols := ["序号", "项目名称", "功能区_L2", "单价", "功能区_L1"],
    rows := [(0, [N 1, S "A", S "x", N 10, E])] }

/-- A sheet with a 备注 column that holds no values at all. -/
def exGrid9 : List (List Cell) :=
  [[S "序号", S "项目名称", S "单价", S "备注"],
   [E, E, E, E],
   [E, E, E, E],
   [N 1, S "A", N 10, E],
   [N 2, S "B", N 20, E]]

/-- The table returned for `exGrid9`. -/
def exOut9 : DF :=
  { cols := ["序号", "项目名称", "单价", "备注", "功能区_L1"],
    rows := [(0, [N 1, S "A", N 10, E, E]), (1, [N 2, S "B", N 20, E, E])] }

/-- A sheet with two columns whose names contain 序号; the second one
(序号说明) carries non-numeric text. -/
def exGrid10 : List (List Cell) :=
  [[S "序号", S "序号说明", S "项目名称", S "单价"],
   [E, E, E, E],
   [E, E, E, E],
   [N 1, S "甲", S "A", N 10]]

/-- The table returned for `exGrid10`. -/
def exOut10 : DF :=
  { cols := ["序号", "序号说明", "项目名称", "单价", "功能区_L1"],
    rows := [(0, [N 1, S "甲", S "A", N 10, E])] }

/-- A 51-character keyword-bearing cell text (备注 followed by 49 `x`). -/
def longKwText : String := "备注" ++ String.mk (List.replicate 49 'x')

/-- Does some scoring keyword occur in the cell's text? -/
def cellHasKeyword (c : Cell) : Bool :=
  keywords.any (fun p => containsSub c.toStr p.1)

/-- A data row of the hierarchy scenarios: numeric serial, a 项目名称 label,
a 功能区 value and an empty 单价 cell. -/
def c6row (n : Int) : List Cell := [N n, S "板", S "x", E]

/-- A summary row carrying the section label `t` in the 项目名称 column. -/
def sumRow (t : String) : List Cell := [S "小计", S t, E, E]

/-- The C6 scenario as a data-region DataFrame: a summary row labelled 地面,
three data rows, a summary row labelled 天花, then arbitrarily many further
data rows. -/
def c6df (n1 n2 n3 : Int) (ns : List Int) : DF :=
  { cols := ["序号", "项目名称", "功能区", "单价"],
    rows := [(0, sumRow "地面"), (1, c6row n1), (2, c6row n2), (3, c6row n3),
             (4, sumRow "天花")] ++ ns.enum.map (fun p => (5 + p.1, c6row p.2)) }

/-- The C7 scenario: arbitrarily many data rows before the first summary row
(labelled 地面), then an arbitrary tail of rows of the same four-cell shape. -/
def genRow (t : Cell × Cell × Cell × Cell) : List Cell := [t.1, t.2.1, t.2.2.1, t.2.2.2]

def c7df (ms : List Int) (ts : List (Cell × Cell × Cell × Cell)) : DF :=
  { cols := ["序号", "项目名称", "功能区", "单价"],
    rows := ms.enum.map (fun p => (p.1, c6row p.2)) ++
      [(ms.length, sumRow "地面")] ++
      ts.enum.map (fun p => (ms.length + 1 + p.1, genRow p.2)) }

/-- The data rows appended below `exGridC3` in the C3 scenario. -/
def c3DataRow (m : Int) : List Cell := [N m, S "B", N 1, N 2]

/-- The C3 scenario: the two header rows and the first data row of
`exGridC3`, followed by arbitrarily many further data rows. -/
def c3Grid (ds : List Int) : List (List Cell) :=
  exGridC3 ++ ds.map c3DataRow

/-! ### Claim theorems -/

set_option maxRecDepth 100000

/-- C1 counterexample: the claim says every summary row is dropped from the
returned table, but parsing `exGrid` (where hierarchy structuring applies —
an L1 column is created) returns all six data-region rows, including the two
summary rows, whose serial value is nulled rather than the row removed: row
0 of the output is the 小计/地面 summary row. -/
theorem C1_counterexample :
    intelligent_read_excel none none (Except.ok exGrid) = (some exOut, exMeta) ∧
    exMeta.l1_column = some "功能区_L1" ∧
    exOut.rows.length = 6 ∧
    (exOut.rows.getD 0 (0, [])).2.getD 0 Cell.empty = Cell.empty ∧
    (exOut.rows.getD 0 (0, [])).2.getD 1 Cell.empty = Cell.str "地面" := by
  refine ⟨?_, by decide, by decide, by decide, by decide⟩
  decide

/-- C2: evaluation of the header merge at the failing input.  A header level
`=SUM(A1:A5)` is joined into the column's display name — the `=` cell is not
extracted into any formula metadata (the `Metadata` record built by
`intelligent_read_excel` has no formula field at all), contradicting the
claim and the module's own docstring. -/
theorem C2_code_eval :
    mergeCols [[S "单价"], [S "=SUM(A1:A5)"]] = ["单价 =SUM(A1:A5)"] ∧
    containsSub "单价 =SUM(A1:A5)" "=" = true := by
  constructor
  · decide
  · decide

/-- C3 counterexample: on a sheet whose rows 0-1 are header rows (names,
units) and whose row 2 is the first real data row, the header block is the
fixed three-row slice rows 0-2: the data row is merged into the column names
(`序号 1`, `项目名称 个 A`, ...) and the returned table is empty instead of
holding that data row. -/
theorem C3_counterexample :
    intelligent_read_excel none none (Except.ok exGridC3) =
      (some { cols := ["序号 1", "项目名称 个 A", "单价 元 10", "合价 元 10"], rows := [] },
       { source_sheet := none, error := none, header_row := some 0,
         columns_found := some ["序号 1", "项目名称 个 A", "单价 元 10", "合价 元 10"],
         l1_column := none, l2_column := none }) ∧
    headerBlock exGridC3 0 = exGridC3 := by
  constructor
  · decide
  · decide

/-- C7 counterexample: parsing `exGrid7` creates an L1 column
(`l1_column` is set), yet the single surviving row — a data row with no
summary row above it — has a null L1 value. -/
theorem C7_counterexample :
    intelligent_read_excel none none (Except.ok exGrid7) =
      (some exOut7,
       { source_sheet := none, error := none, header_row := some 0,
         columns_found := some ["序号", "项目名称", "功能区", "单价"],
         l1_column := some "功能区_L1", l2_column := some "功能区_L2" }) ∧
    (exOut7.rows.getD 0 (0, [])).2.getD 4 Cell.empty = Cell.empty := by
  constructor
  · decide
  · decide

/-- C9 counterexample: parsing `exGrid9` succeeds and the returned table
still contains the entirely empty 备注 column (both of its values are null),
so fully-empty columns are not dropped. -/
theorem C9_counterexample :
    intelligent_read_excel none none (Except.ok exGrid9) =
      (some exOut9,
       { source_sheet := none, error := none, header_row := some 0,
         columns_found := some ["序号", "项目名称", "单价", "备注"],
         l1_column := some "功能区_L1", l2_column := none }) ∧
    exOut9.cols.getD 3 "" = "备注" ∧
    colValues exOut9.rows 3 = [Cell.empty, Cell.empty] ∧
    exOut9.rows.length = 2 := by
  refine ⟨?_, by decide, by decide, by decide⟩
  decide

/-- C10 counterexample: parsing `exGrid10` returns a table whose second
column 序号说明 contains 序号 in its name, yet its value in the surviving row
is the non-numeric, non-null text 甲 — only the first 序号 column is coerced. -/
theorem C10_counterexample :
    intelligent_read_excel none none (Except.ok exGrid10) =
      (some exOut10,
       { source_sheet := none, error := none, header_row := some 0,
         columns_found := some ["序号", "序号说明", "项目名称", "单价"],
         l1_column := some "功能区_L1", l2_column := none }) ∧
    containsSub (exOut10.cols.getD 1 "") "序号" = true ∧
    colValues exOut10.rows 1 = [Cell.str "甲"] := by
  refine ⟨?_, by decide, by decide⟩
  decide

/-- C8 counterexample: a row with one short non-empty cell scores 0, while a
row with three non-empty keyword-bearing cells — each 51 characters long —
scores negative, so the claimed inequality fails as stated. -/
theorem C8_counterexample :
    get_row_score [S "价"] = 0 ∧
    ([S "价"].filter Cell.notna).length = 1 ∧
    "价".length ≤ 50 ∧
    (([S longKwText, S longKwText, S longKwText].filter
        (fun c => c.notna && cellHasKeyword c)).length = 3) ∧
    ¬ get_row_score [S "价"] ≤
        get_row_score [S longKwText, S longKwText, S longKwText] := by
  refine ⟨by decide, by decide, by decide, by decide, by decide⟩

/-! ### Bridge lemmas for the kernel-friendly rational helpers -/

theorem ratAdd_eq (a b : Rat) : ratAdd a b = a + b := by
  rw [ratAdd, Rat.mkRat_eq_div]
  have ha : ((a.den : Rat)) ≠ 0 := Nat.cast_ne_zero.mpr a.den_nz
  have hb : ((b.den : Rat)) ≠ 0 := Nat.cast_ne_zero.mpr b.den_nz
  conv_rhs => rw [← Rat.num_div_den a, ← Rat.num_div_den b]
  field_simp
  try push_cast
  try ring

theorem ratSub_eq (a b : Rat) : ratSub a b = a - b := by
  rw [ratSub, Rat.mkRat_eq_div]
  have ha : ((a.den : Rat)) ≠ 0 := Nat.cast_ne_zero.mpr a.den_nz
  have hb : ((b.den : Rat)) ≠ 0 := Nat.cast_ne_zero.mpr b.den_nz
  conv_rhs => rw [← Rat.num_div_den a, ← Rat.num_div_den b]
  field_simp
  try push_cast
  try ring

theorem ratDivNat_eq (a : Rat) (n : Nat) : ratDivNat a n = a / (n : Rat) := by
  by_cases hn : n = 0
  · subst hn
    simp [ratDivNat, Rat.mkRat_eq_div]
  · rw [ratDivNat, Rat.mkRat_eq_div]
    have ha : ((a.den : Rat)) ≠ 0 := Nat.cast_ne_zero.mpr a.den_nz
    have hn' : ((n : Rat)) ≠ 0 := Nat.cast_ne_zero.mpr hn
    conv_rhs => rw [← Rat.num_div_den a]
    field_simp
    try push_cast
    try ring

theorem sumRat_eq (l : List Rat) : sumRat l = l.sum := by
  induction l with
  | nil => rfl
  | cons q qs ih => rw [sumRat, ratAdd_eq, ih, List.sum_cons]

/-! ### C4 -/

/-- C4 counterexample: the program does not always return a metadata
mapping.  On `crashGrid` the located header names its first column
`功能区序号 1`, the 功能区_L2 rename erases that name, and the serial
re-read of line 217 raises an uncaught `KeyError` — no table and no
metadata.  And with the declared default `sheet_name=None`, `pd.read_excel`
hands the header finders a dict, whose first `iloc` access raises
`AttributeError`. -/
theorem C4_counterexample :
    intelligent_read_excel_exc none (some (Sum.inr 0)) (ReadOutcome.single crashGrid) =
      Except.error "KeyError: 功能区序号 1" ∧
    intelligent_read_excel_exc none none (ReadOutcome.multi [crashGrid]) =
      Except.error "AttributeError: dict object has no attribute iloc" := by
  constructor
  · rfl
  · rfl

/-- C4 (amended): `intelligent_read_excel` can fail to return at all — the
`KeyError` of line 217 and the `AttributeError` caused by the dict that
`pd.read_excel` yields for the default `sheet_name=None` escape it — but
whenever it does return, the metadata record is present, carries the
requested sheet, and exactly one of table and error is present: a
non-`None` table with no error entry on success, or no table (never an
empty one) with a diagnostic string on failure. -/
theorem C4_theorem (model : Option SemanticModel) (sheet : Option (String ⊕ Nat))
    (r : ReadOutcome) (t : Option DF) (m : Metadata)
    (hret : intelligent_read_excel_exc model sheet r = Except.ok (t, m)) :
    m.source_sheet = sheet ∧
    ((t.isSome = true ∧ m.error = none) ∨
     (t = none ∧ m.error.isSome = true)) := by
  cases r with
  | fail e =>
    simp only [intelligent_read_excel_exc, Except.ok.injEq, Prod.mk.injEq] at hret
    obtain ⟨ht, hm⟩ := hret
    subst ht; subst hm
    exact ⟨rfl, Or.inr ⟨rfl, rfl⟩⟩
  | multi sheets =>
    cases model with
    | some f => simp [intelligent_read_excel_exc] at hret
    | none =>
      simp only [intelligent_read_excel_exc] at hret
      split at hret
      · simp only [Except.ok.injEq, Prod.mk.injEq] at hret
        obtain ⟨ht, hm⟩ := hret
        subst ht; subst hm
        exact ⟨rfl, Or.inr ⟨rfl, rfl⟩⟩
      · simp at hret
  | single g =>
    simp only [intelligent_read_excel_exc] at hret
    by_cases hb : ((if find_header_row_semantic model g 20 == -1
        then find_header_row_rule_based g 20
        else find_header_row_semantic model g 20) == -1) = true
    · rw [if_pos hb] at hret
      simp only [Except.ok.injEq, Prod.mk.injEq] at hret
      obtain ⟨ht, hm⟩ := hret
      subst ht; subst hm
      exact ⟨rfl, Or.inr ⟨rfl, rfl⟩⟩
    · rw [if_neg hb] at hret
      split at hret
      · simp at hret
      · simp only [Except.ok.injEq, Prod.mk.injEq] at hret
        obtain ⟨ht, hm⟩ := hret
        subst ht; subst hm
        exact ⟨rfl, Or.inl ⟨rfl, rfl⟩⟩

/-- Witness for C4: a concrete failed read returns table `None` together
with metadata holding the requested sheet and the diagnostic string. -/
theorem C4_witness :
    ({ source_sheet := some (Sum.inr 0),
       error := some ("读取Excel文件失败: " ++ "boom") } : Metadata).source_sheet =
        some (Sum.inr 0) ∧
    (((none : Option DF).isSome = true ∧
      ({ source_sheet := some (Sum.inr 0),
         error := some ("读取Excel文件失败: " ++ "boom") } : Metadata).error = none) ∨
     ((none : Option DF) = none ∧
      (({ source_sheet := some (Sum.inr 0),
          error := some ("读取Excel文件失败: " ++ "boom") } : Metadata).error).isSome = true)) :=
  C4_theorem none (some (Sum.inr 0)) (ReadOutcome.fail "boom") none
    { source_sheet := some (Sum.inr 0), error := some ("读取Excel文件失败: " ++ "boom") } rfl

/-! ### Helper lemmas for header discovery -/

theorem snd_mem_of_mem_enumFrom {α : Type} :
    ∀ {l : List α} {n : Nat} {p : Nat × α}, p ∈ l.enumFrom n → p.2 ∈ l := by
  intro l
  induction l with
  | nil => intro n p h; cases h
  | cons a as ih =>
    intro n p h
    cases h with
    | head => exact List.mem_cons_self a as
    | tail _ h' => exact List.mem_cons_of_mem _ (ih h')

theorem snd_mem_of_mem_enum {α : Type} {l : List α} {p : Nat × α}
    (h : p ∈ l.enum) : p.2 ∈ l := snd_mem_of_mem_enumFrom h

theorem foldl_pickBest_mem : ∀ (cs : List (Nat × Rat)) (c : Nat × Rat),
    cs.foldl pickBest c ∈ c :: cs := by
  intro cs
  induction cs with
  | nil => intro c; exact List.mem_cons_self c []
  | cons q qs ih =>
    intro c
    rw [List.foldl_cons]
    rcases List.mem_cons.mp (ih (pickBest c q)) with h | h
    · rw [h]
      unfold pickBest
      by_cases hq : q.2 > c.2
      · rw [if_pos hq]
        exact List.mem_cons_of_mem _ (List.mem_cons_self q qs)
      · rw [if_neg hq]
        exact List.mem_cons_self c (q :: qs)
    · exact List.mem_cons_of_mem _ (List.mem_cons_of_mem _ h)

theorem semanticCands_snd_lt (m : SemanticModel) (df : List (List Cell)) (n : Nat)
    (t : Rat) (hlow : ∀ r ∈ df.take n, 3 ≤ (rowTexts r).length → m (rowTexts r) < t) :
    ∀ q ∈ semanticCands m df n, q.2 < t := by
  intro q hq
  rcases List.mem_filterMap.mp hq with ⟨p, hp, hf⟩
  by_cases hlen : (rowTexts p.2).length < 3
  · simp [hlen] at hf
  · simp only [hlen, if_neg, if_false] at hf
    have hm := hlow p.2 (snd_mem_of_mem_enum hp) (Nat.le_of_not_lt hlen)
    rw [← Option.some.inj hf]
    exact hm

theorem getD_lt_of_all (l : List Rat) (i : Nat) (t : Rat) (h0 : (0 : Rat) < t)
    (hall : ∀ x ∈ l, x < t) : l.getD i 0 < t := by
  induction l generalizing i with
  | nil => simpa [List.getD] using h0
  | cons x xs ih =>
    cases i with
    | zero => simpa [List.getD] using hall x (List.mem_cons_self x xs)
    | succ k =>
      simp only [List.getD_cons_succ]
      exact ih k (fun y hy => hall y (List.mem_cons_of_mem _ hy))

/-! ### C5 -/

/-- C5: header discovery never raises for low confidence.  The semantic
scorer returns the sentinel -1 when the model is unavailable or every
candidate row scores below its 0.3 threshold; the rule-based finder returns
-1 when every scanned row scores below its 2.0 threshold; when both return
the sentinel the orchestrator fails the parse with the header-not-found
error and no table, and whenever either strategy returns a row index the
parse proceeds with that header row and no error is recorded (the semantic
result is used first, the rule-based result only as fallback). -/
theorem C5_theorem :
    (∀ (df : List (List Cell)) (n : Nat), find_header_row_semantic none df n = -1) ∧
    (∀ (m : SemanticModel) (df : List (List Cell)) (n : Nat),
      (∀ r ∈ df.take n, 3 ≤ (rowTexts r).length → m (rowTexts r) < mkRat 3 10) →
      find_header_row_semantic (some m) df n = -1) ∧
    (∀ (df : List (List Cell)) (n : Nat),
      (∀ r ∈ df.take n, get_row_score r < 2) →
      find_header_row_rule_based df n = -1) ∧
    (∀ (model : Option SemanticModel) (sheet : Option (String ⊕ Nat))
       (g : List (List Cell)),
      find_header_row_semantic model g 20 = -1 →
      find_header_row_rule_based g 20 = -1 →
      intelligent_read_excel model sheet (Except.ok g) =
        (none, { source_sheet := sheet, error := some "无法自动定位表头。请检查文件格式。" })) ∧
    (∀ (model : Option SemanticModel) (sheet : Option (String ⊕ Nat))
       (g : List (List Cell)) (k : Nat),
      find_header_row_semantic model g 20 = -1 →
      find_header_row_rule_based g 20 = Int.ofNat k →
      (intelligent_read_excel model sheet (Except.ok g)).2.header_row = some k ∧
      (intelligent_read_excel model sheet (Except.ok g)).2.error = none) ∧
    (∀ (model : Option SemanticModel) (sheet : Option (String ⊕ Nat))
       (g : List (List Cell)) (k : Nat),
      find_header_row_semantic model g 20 = Int.ofNat k →
      (intelligent_read_excel model sheet (Except.ok g)).2.header_row = some k ∧
      (intelligent_read_excel model sheet (Except.ok g)).2.error = none) := by
  refine ⟨?_, ?_, ?_, ?_, ?_, ?_⟩
  · intro df n
    rfl
  · intro m df n hlow
    have hall := semanticCands_snd_lt m df n (mkRat 3 10) hlow
    cases hc : semanticCands m df n with
    | nil => simp [find_header_row_semantic, hc]
    | cons c cs =>
      have hbest : (cs.foldl pickBest c) ∈ c :: cs := foldl_pickBest_mem cs c
      have hlt : (cs.foldl pickBest c).2 < mkRat 3 10 := by
        apply hall
        rw [hc]
        exact hbest
      simp [find_header_row_semantic, hc, hlt]
  · intro df n hlow
    have hall : ∀ x ∈ (df.take n).map get_row_score, x < 2 := by
      intro x hx
      rcases List.mem_map.mp hx with ⟨r, hr, rfl⟩
      exact hlow r hr
    have hgd := getD_lt_of_all ((df.take n).map get_row_score)
      (argmaxIdx ((df.take n).map get_row_score)) 2 (by norm_num) hall
    unfold find_header_row_rule_based
    by_cases he : ((df.take n).map get_row_score).isEmpty
    · rw [if_pos he]
    · rw [if_neg he, if_pos hgd]
  · intro model sheet g h1 h2
    simp [intelligent_read_excel, h1, h2]
  · intro model sheet g k h1 h2
    have hk : Int.ofNat k ≠ -1 := by
      rw [Int.ofNat_eq_natCast]
      omega
    constructor
    · simp [intelligent_read_excel, h1, h2, hk]
    · simp [intelligent_read_excel, h1, h2, hk]
  · intro model sheet g k h1
    have hk : Int.ofNat k ≠ -1 := by
      rw [Int.ofNat_eq_natCast]
      omega
    constructor
    · simp [intelligent_read_excel, h1, hk]
    · simp [intelligent_read_excel, h1, hk]

/-- C5 witness: the theorem applied at concrete inputs.  On a one-row sheet
whose row has only two texts, a model scoring everything 0 yields the
sentinel, the rule-based finder also yields the sentinel, and the parse
fails with the header-not-found error; on `exGrid` the rule-based fallback
locates row 0 and the parse records it with no error. -/
theorem C5_witness :
    find_header_row_semantic (some (fun _ => 0)) [[S "x", S "y"]] 20 = -1 ∧
    find_header_row_rule_based [[S "x", S "y"]] 20 = -1 ∧
    intelligent_read_excel (some (fun _ => 0)) none (Except.ok [[S "x", S "y"]]) =
      (none, { source_sheet := none, error := some "无法自动定位表头。请检查文件格式。" }) ∧
    (intelligent_read_excel none none (Except.ok exGrid)).2.header_row = some 0 ∧
    (intelligent_read_excel none none (Except.ok exGrid)).2.error = none := by
  have h2 := C5_theorem.2.1 (fun _ => 0) [[S "x", S "y"]] 20 (by decide)
  have h3 := C5_theorem.2.2.1 [[S "x", S "y"]] 20 (by decide)
  have h4 := C5_theorem.2.2.2.1 (some (fun _ => 0)) none [[S "x", S "y"]] h2 h3
  have h5 := C5_theorem.2.2.2.2.1 none none exGrid 0 (C5_theorem.1 exGrid 20) (by decide)
  exact ⟨h2, h3, h4, h5.1, h5.2⟩

/-! ### Length and shape lemmas for the cleaning stages -/

theorem ffillFrom_length (last : Cell) (l : List Cell) :
    (ffillFrom last l).length = l.length := by
  induction l generalizing last with
  | nil => rfl
  | cons c cs ih => simp [ffillFrom, ih]

theorem ffill_length (l : List Cell) : (ffill l).length = l.length :=
  ffillFrom_length Cell.empty l

theorem isDataFlags_length (s? : Option Nat) (rows : List (Nat × List Cell)) :
    (isDataFlags s? rows).length = rows.length := by
  cases s? <;> simp [isDataFlags]

theorem colValues_length (rows : List (Nat × List Cell)) (j : Nat) :
    (colValues rows j).length = rows.length := by
  simp [colValues]

theorem toNumericIgnoreCol_length (col : List Cell) :
    (toNumericIgnoreCol col).length = col.length := by
  unfold toNumericIgnoreCol
  split <;> simp

theorem setCol_length (rows : List (Nat × List Cell)) (j : Nat) (vals : List Cell) :
    (setCol rows j vals).length = min rows.length vals.length := by
  simp [setCol]

theorem addL1_length (p? : Option Nat) (flags : List Bool)
    (rows1 : List (Nat × List Cell)) (hf : flags.length = rows1.length) :
    (addL1 p? flags rows1).length = rows1.length := by
  cases p? with
  | none => rfl
  | some k =>
    simp [addL1, ffill_length, l1Seed]
    omega

theorem coerceSerial_length (s? : Option String) (cols3 : List String)
    (rows3 : List (Nat × List Cell)) :
    (coerceSerial s? cols3 rows3).length = rows3.length := by
  cases s? with
  | none => rfl
  | some s =>
    cases hj : firstIdxWhere (fun c => c == s) cols3 with
    | none => simp [coerceSerial, hj]
    | some j => simp [coerceSerial, hj]

theorem foldlIgnore_length (cols : List String) (skip : Option String)
    (ps : List Nat) :
    ∀ rs : List (Nat × List Cell),
      (ps.foldl (fun rs j => if skip == some (cols.getD j "") then rs
        else setCol rs j (toNumericIgnoreCol (colValues rs j))) rs).length = rs.length := by
  induction ps with
  | nil => intro rs; rfl
  | cons p ps ih =>
    intro rs
    rw [List.foldl_cons, ih]
    show (if (skip == some (cols.getD p "")) = true then rs
      else setCol rs p (toNumericIgnoreCol (colValues rs p))).length = rs.length
    by_cases hs : (skip == some (cols.getD p "")) = true
    · rw [if_pos hs]
    · rw [if_neg hs, setCol_length, toNumericIgnoreCol_length, colValues_length,
        Nat.min_self]

theorem applyIgnoreAll_length (cols : List String) (skip : Option String)
    (rows : List (Nat × List Cell)) :
    (applyIgnoreAll cols skip rows).length = rows.length :=
  foldlIgnore_length cols skip (List.range cols.length) rows

theorem resetIndex_length (rows : List (Nat × List Cell)) :
    (resetIndex rows).length = rows.length := by
  simp [resetIndex]

theorem resetIndex_map_fst (rows : List (Nat × List Cell)) :
    (resetIndex rows).map Prod.fst = List.range rows.length := by
  rw [resetIndex, List.map_map]
  have h : (Prod.fst ∘ fun p : Nat × (Nat × List Cell) => (p.1, p.2.2)) = Prod.fst := rfl
  rw [h, List.enum_map_fst]

/-- The cleaned table keeps exactly the rows that are not entirely empty. -/
theorem clean_rows_length (df : DF) :
    (clean_and_structure_data df).1.rows.length = (dropAllNaRows df.rows).length := by
  simp only [clean_and_structure_data]
  split
  · rfl
  · dsimp only
    rw [resetIndex_length, applyIgnoreAll_length, coerceSerial_length,
      addL1_length _ _ _ (isDataFlags_length _ _)]

/-! ### C1 (amended) -/

/-- C1 (amended): summary rows are not dropped — for every input DataFrame
the cleaned table holds exactly the rows that are not entirely empty
(summary rows included; their serial is merely nulled), and the surviving
rows' index labels are reset to the dense 0-based sequence. -/
theorem C1_theorem (df : DF) :
    (clean_and_structure_data df).1.rows.length = (dropAllNaRows df.rows).length ∧
    (clean_and_structure_data df).1.rows.map Prod.fst =
      List.range (clean_and_structure_data df).1.rows.length := by
  refine ⟨clean_rows_length df, ?_⟩
  simp only [clean_and_structure_data]
  split
  · rename_i h
    rw [List.isEmpty_iff.mp h]
    rfl
  · dsimp only
    rw [resetIndex_map_fst, resetIndex_length]

/-! ### C9 (amended) -/

/-- C9 (amended): every row that is entirely empty on entry is dropped
(exactly the non-empty rows survive), but columns are never dropped — the
cleaned table has at least as many columns as the input (the count only
grows when 功能区_L1 is appended), so entirely empty columns survive. -/
theorem C9_theorem (df : DF) :
    (clean_and_structure_data df).1.rows.length =
      (df.rows.filter (fun r => r.2.any Cell.notna)).length ∧
    df.cols.length ≤ (clean_and_structure_data df).1.cols.length := by
  refine ⟨clean_rows_length df, ?_⟩
  simp only [clean_and_structure_data]
  split
  · simp
  · dsimp only
    cases hl2 : firstIdxWhere (fun c => containsSub c "功能区") df.cols with
    | none =>
      simp only [hl2]
      cases hpn : firstIdxWhere (fun c => containsSub c "项目名称") df.cols with
      | none => simp [hpn]
      | some k => simp [hpn]
    | some j =>
      simp only [hl2]
      cases hpn : firstIdxWhere (fun c => containsSub c "项目名称")
          (df.cols.set j "功能区_L2") with
      | none => simp [hpn, List.length_set]
      | some k => simp [hpn, List.length_set]

/-! ### Helper lemmas for the row scorer -/

theorem length_filter_and_le (l : List Cell) (p q : Cell → Bool) :
    (l.filter (fun c => p c && q c)).length ≤ (l.filter p).length := by
  induction l with
  | nil => simp
  | cons c cs ih =>
    simp only [List.filter_cons]
    by_cases hp : p c <;> by_cases hq : q c <;> simp [hp, hq] <;> omega

theorem keywords_weights_nonneg : ∀ p ∈ keywords, (0 : Int) ≤ p.2 := by decide

theorem kwSum_nonneg (s : String) :
    0 ≤ (keywords.map (fun p => if containsSub s p.1 then p.2 else 0)).sum := by
  apply List.sum_nonneg
  intro x hx
  rcases List.mem_map.mp hx with ⟨p, hp, rfl⟩
  by_cases h : containsSub s p.1
  · simpa [h] using keywords_weights_nonneg p hp
  · simp [h]

theorem mkRat_one_den (k : Int) : mkRat k 1 = (k : Rat) := by
  rw [Rat.mkRat_eq_div]
  simp

theorem cellScore_nonneg (c : Cell) (hshort : c.toStr.length ≤ 50) :
    0 ≤ cellScore c := by
  simp only [cellScore]
  have hpen : (if c.toStr.length > 50 then (10 : Rat) else 0) = 0 := if_neg (by omega)
  rw [ratSub_eq, ratAdd_eq, mkRat_one_den, hpen]
  have hkw : (0 : Rat) ≤
      (((keywords.map (fun p => if containsSub c.toStr p.1 then p.2 else 0)).sum : Int) : Rat) := by
    exact_mod_cast kwSum_nonneg c.toStr
  have hb : (0 : Rat) ≤ (if c.isStr then mkRat 1 2 else 0) := by
    by_cases h : c.isStr = true
    · rw [if_pos h, Rat.mkRat_eq_div]
      norm_num
    · rw [if_neg h]
  linarith

/-! ### C8 (amended) -/

/-- C8 (amended): if additionally every non-empty cell of the second row is
short (at most 50 characters, so the long-text penalty cannot fire), then a
row with exactly one non-empty short cell scores exactly 0, which is at most
the score of a row with three or more non-empty keyword-bearing cells. -/
theorem C8_theorem (r1 r2 : List Cell)
    (h1 : (r1.filter Cell.notna).length = 1)
    (h1s : ∀ c ∈ r1, c.notna = true → c.toStr.length ≤ 50)
    (h2 : 3 ≤ (r2.filter (fun c => c.notna && cellHasKeyword c)).length)
    (h2s : ∀ c ∈ r2, c.notna = true → c.toStr.length ≤ 50) :
    get_row_score r1 = 0 ∧ get_row_score r1 ≤ get_row_score r2 := by
  have hz : get_row_score r1 = 0 := by
    simp only [get_row_score]
    rw [h1]
    simp
  refine ⟨hz, ?_⟩
  rw [hz]
  have hn : 3 ≤ (r2.filter Cell.notna).length :=
    le_trans h2 (length_filter_and_le r2 Cell.notna cellHasKeyword)
  simp only [get_row_score]
  rw [if_neg (by omega), ratDivNat_eq]
  apply div_nonneg
  · rw [sumRat_eq]
    apply List.sum_nonneg
    intro x hx
    rcases List.mem_map.mp hx with ⟨c, hc, rfl⟩
    exact cellScore_nonneg c
      (h2s c (List.mem_of_mem_filter hc) (List.of_mem_filter hc))
  · exact Nat.cast_nonneg _

/-- C8 witness: the amended claim applied at a one-cell row and a row of
three short keyword-bearing header cells. -/
theorem C8_witness :
    get_row_score [S "名"] = 0 ∧
    get_row_score [S "名"] ≤ get_row_score [S "序号", S "单价", S "合价"] :=
  C8_theorem [S "名"] [S "序号", S "单价", S "合价"]
    (by decide) (by decide) (by decide) (by decide)

/-! ### Index and column-tracking lemmas -/

theorem firstIdxWhere_spec (p : String → Bool) :
    ∀ (l : List String) (j : Nat), firstIdxWhere p l = some j →
      j < l.length ∧ p (l.getD j "") = true ∧ ∀ i, i < j → p (l.getD i "") = false := by
  intro l
  induction l with
  | nil => intro j h; cases h
  | cons c cs ih =>
    intro j h
    by_cases hp : p c = true
    · rw [firstIdxWhere, if_pos hp] at h
      cases h
      exact ⟨Nat.succ_pos _, hp, fun i hi => absurd hi (Nat.not_lt_zero i)⟩
    · rw [firstIdxWhere, if_neg hp] at h
      cases hw : firstIdxWhere p cs with
      | none => rw [hw] at h; cases h
      | some j' =>
        rw [hw] at h
        simp only [Option.map_some'] at h
        cases h
        obtain ⟨h1, h2, h3⟩ := ih j' hw
        refine ⟨Nat.succ_lt_succ h1, h2, ?_⟩
        intro i hi
        cases i with
        | zero => simpa using hp
        | succ i' => exact h3 i' (Nat.lt_of_succ_lt_succ hi)

theorem firstIdxWhere_eq_some (p : String → Bool) :
    ∀ (l : List String) (j : Nat), j < l.length → p (l.getD j "") = true →
      (∀ i, i < j → p (l.getD i "") = false) → firstIdxWhere p l = some j := by
  intro l
  induction l with
  | nil => intro j h; cases h
  | cons c cs ih =>
    intro j hlen hp hlt
    cases j with
    | zero =>
      simp only [List.getD_cons_zero] at hp
      rw [firstIdxWhere, if_pos hp]
    | succ j' =>
      have h0 : p c = false := by simpa using hlt 0 (Nat.succ_pos _)
      rw [firstIdxWhere, if_neg (by simp [h0])]
      have hcs : firstIdxWhere p cs = some j' := by
        apply ih j' (Nat.lt_of_succ_lt_succ hlen)
        · simpa using hp
        · intro i hi
          simpa using hlt (i + 1) (Nat.succ_lt_succ hi)
      rw [hcs]
      rfl

theorem getD_set_ne {α : Type} (d : α) :
    ∀ (l : List α) (i j : Nat) (v : α), i ≠ j → (l.set i v).getD j d = l.getD j d := by
  intro l
  induction l with
  | nil => intro i j v _; rfl
  | cons a as ih =>
    intro i j v hne
    cases i with
    | zero =>
      cases j with
      | zero => exact absurd rfl hne
      | succ j' => rfl
    | succ i' =>
      cases j with
      | zero => rfl
      | succ j' => exact ih i' j' v (fun h => hne (by rw [h]))

theorem getD_set_self {α : Type} (d : α) :
    ∀ (l : List α) (i : Nat) (v : α),
      (l.set i v).getD i d = if i < l.length then v else d := by
  intro l
  induction l with
  | nil => intro i v; simp [List.getD]
  | cons a as ih =>
    intro i v
    cases i with
    | zero => simp [List.getD]
    | succ i' =>
      simp only [List.set, List.length_cons]
      rw [List.getD_cons_succ, ih]
      by_cases h : i' < as.length
      · rw [if_pos h, if_pos (Nat.succ_lt_succ h)]
      · rw [if_neg h, if_neg (fun hc => h (Nat.lt_of_succ_lt_succ hc))]

theorem getD_append_left {α : Type} (d : α) :
    ∀ (l l' : List α) (i : Nat), i < l.length → (l ++ l').getD i d = l.getD i d := by
  intro l
  induction l with
  | nil => intro l' i h; cases h
  | cons a as ih =>
    intro l' i h
    cases i with
    | zero => rfl
    | succ i' => exact ih l' i' (Nat.lt_of_succ_lt_succ h)

theorem getD_mem_or_default {α : Type} (l : List α) (i : Nat) (d : α) :
    l.getD i d ∈ l ∨ l.getD i d = d := by
  induction l generalizing i with
  | nil => right; rfl
  | cons a as ih =>
    cases i with
    | zero => left; exact List.mem_cons_self a as
    | succ i' =>
      rw [List.getD_cons_succ]
      rcases ih i' with h | h
      · left; exact List.mem_cons_of_mem a h
      · right; exact h

theorem coerceCell_shape (c : Cell) :
    coerceCell c = Cell.empty ∨ ∃ n, coerceCell c = Cell.num n := by
  unfold coerceCell
  cases parseNumCell c with
  | none => left; rfl
  | some n => right; exact ⟨n, rfl⟩

theorem colValues_coerce_self (rows : List (Nat × List Cell)) (j : Nat) :
    ∀ c ∈ colValues
      (rows.map (fun r => (r.1, r.2.set j (coerceCell (r.2.getD j Cell.empty))))) j,
      c = Cell.empty ∨ ∃ n, c = Cell.num n := by
  intro c hc
  rw [colValues, List.map_map] at hc
  rcases List.mem_map.mp hc with ⟨r, _, rfl⟩
  simp only [Function.comp]
  rw [getD_set_self]
  by_cases h : j < r.2.length
  · rw [if_pos h]
    exact coerceCell_shape _
  · rw [if_neg h]
    left; rfl

theorem colValues_setCol_ne (p k : Nat) (hne : p ≠ k) :
    ∀ (rows : List (Nat × List Cell)) (vals : List Cell),
      vals.length = rows.length →
      colValues (setCol rows p vals) k = colValues rows k := by
  intro rows
  induction rows with
  | nil => intro vals _; rfl
  | cons r rs ih =>
    intro vals hlen
    cases vals with
    | nil => cases hlen
    | cons v vs =>
      simp only [setCol, List.zip_cons_cons, List.map_cons, colValues]
      rw [getD_set_ne _ _ _ _ _ hne]
      have := ih vs (by simpa using hlen)
      simp only [setCol, colValues] at this
      rw [this]

theorem foldlIgnore_colValues (cols : List String) (sk : Option String) (j : Nat)
    (hj : sk = some (cols.getD j "")) (ps : List Nat) :
    ∀ rs : List (Nat × List Cell),
      colValues (ps.foldl (fun rs j => if sk == some (cols.getD j "") then rs
        else setCol rs j (toNumericIgnoreCol (colValues rs j))) rs) j = colValues rs j := by
  induction ps with
  | nil => intro rs; rfl
  | cons p ps ih =>
    intro rs
    rw [List.foldl_cons, ih]
    show colValues (if (sk == some (cols.getD p "")) = true then rs
      else setCol rs p (toNumericIgnoreCol (colValues rs p))) j = colValues rs j
    by_cases hsp : (sk == some (cols.getD p "")) = true
    · rw [if_pos hsp]
    · rw [if_neg hsp]
      have hpj : p ≠ j := by
        intro he
        subst he
        apply hsp
        rw [hj]
        exact beq_self_eq_true _
      exact colValues_setCol_ne p j hpj rs _
        (by rw [toNumericIgnoreCol_length, colValues_length])

theorem applyIgnoreAll_colValues_skip (cols : List String) (sk : Option String)
    (j : Nat) (hj : sk = some (cols.getD j "")) (rows : List (Nat × List Cell)) :
    colValues (applyIgnoreAll cols sk rows) j = colValues rows j :=
  foldlIgnore_colValues cols sk j hj (List.range cols.length) rows

theorem colValues_resetIndex (rows : List (Nat × List Cell)) (j : Nat) :
    colValues (resetIndex rows) j = colValues rows j := by
  rw [resetIndex, colValues, List.map_map]
  have h : ((fun r : Nat × List Cell => r.2.getD j Cell.empty) ∘
      fun p : Nat × (Nat × List Cell) => (p.1, p.2.2)) =
      (fun r : Nat × List Cell => r.2.getD j Cell.empty) ∘ Prod.snd := rfl
  rw [h, ← List.map_map, List.enum_map_snd, colValues]

/-- After the 功能区→功能区_L2 rename and the possible 功能区_L1 append, the
serial column's name is still first found (by exact equality) at its
original position `j`. -/
theorem firstIdxEq_serial (cols : List String) (j : Nat)
    (hj : firstIdxWhere (fun c => containsSub c "序号") cols = some j)
    (hn : containsSub (cols.getD j "") "功能区" = false)
    (cols3 : List String)
    (hpre : ∀ i, i < j →
      cols3.getD i "" = cols.getD i "" ∨ cols3.getD i "" = "功能区_L2")
    (hat : cols3.getD j "" = cols.getD j "")
    (hlen : cols.length ≤ cols3.length) :
    firstIdxWhere (fun c => c == cols.getD j "") cols3 = some j := by
  obtain ⟨hjlen, hpj, hlt⟩ := firstIdxWhere_spec _ cols j hj
  apply firstIdxWhere_eq_some
  · exact Nat.lt_of_lt_of_le hjlen hlen
  · rw [hat]
    exact beq_self_eq_true _
  · intro i hi
    apply beq_eq_false_iff_ne.mpr
    rcases hpre i hi with h | h
    · rw [h]
      intro he
      have hx := hlt i hi
      rw [he, hpj] at hx
      cases hx
    · rw [h]
      intro he
      have hcs : containsSub (cols.getD j "") "序号" = true := hpj
      rw [← he] at hcs
      have hfalse : containsSub "功能区_L2" "序号" = false := by decide
      rw [hcs] at hfalse
      cases hfalse

/-- The serial column holds only numbers and nulls after the coercion,
`errors='ignore'` and index-reset stages. -/
theorem cleanTail_serial (s : String) (cols3 : List String) (j : Nat)
    (hat3 : cols3.getD j "" = s)
    (hj3 : firstIdxWhere (fun c => c == s) cols3 = some j)
    (rows3 : List (Nat × List Cell)) (i : Nat) :
    (colValues (resetIndex (applyIgnoreAll cols3 (some s)
        (coerceSerial (some s) cols3 rows3))) j).getD i Cell.empty = Cell.empty ∨
    ∃ n, (colValues (resetIndex (applyIgnoreAll cols3 (some s)
        (coerceSerial (some s) cols3 rows3))) j).getD i Cell.empty = Cell.num n := by
  rw [colValues_resetIndex,
    applyIgnoreAll_colValues_skip cols3 (some s) j (by rw [hat3])]
  simp only [coerceSerial, hj3]
  rcases getD_mem_or_default (colValues
    (rows3.map (fun r => (r.1, r.2.set j (coerceCell (r.2.getD j Cell.empty))))) j)
    i Cell.empty with h | h
  · exact colValues_coerce_self rows3 j _ h
  · left
    exact h

/-! ### C10 (amended) -/

/-- C10 (amended): only the first column whose name contains 序号 is
coerced: every value of that column in the cleaned table is numeric or null
(rows with non-numeric serial text are kept, the text replaced by null).
The hypothesis that the serial column's name does not contain 功能区 rules
out the pathological overlap on which the source itself would raise a
KeyError; a second 序号-bearing column is not coerced (see
C10_counterexample). -/
theorem C10_theorem (df : DF) (j i : Nat)
    (hj : firstIdxWhere (fun c => containsSub c "序号") df.cols = some j)
    (hn : containsSub (df.cols.getD j "") "功能区" = false) :
    (colValues (clean_and_structure_data df).1.rows j).getD i Cell.empty = Cell.empty ∨
    ∃ n, (colValues (clean_and_structure_data df).1.rows j).getD i Cell.empty =
      Cell.num n := by
  obtain ⟨hjlen, hpj, hlt⟩ := firstIdxWhere_spec _ df.cols j hj
  simp only [clean_and_structure_data]
  split
  · rename_i h
    rw [List.isEmpty_iff.mp h]
    left
    rfl
  · dsimp only
    rw [hj]
    simp only [Option.map_some']
    cases hl2 : firstIdxWhere (fun c => containsSub c "功能区") df.cols with
    | none =>
      simp only [hl2]
      cases hpn : firstIdxWhere (fun c => containsSub c "项目名称") df.cols with
      | none =>
        simp only [hpn]
        exact cleanTail_serial _ df.cols j rfl
          (firstIdxEq_serial df.cols j hj hn df.cols
            (fun i _ => Or.inl rfl) rfl (Nat.le_refl _)) _ i
      | some k =>
        simp only [hpn]
        have hat3 : (df.cols ++ ["功能区_L1"]).getD j "" = df.cols.getD j "" :=
          getD_append_left _ _ _ j hjlen
        exact cleanTail_serial _ (df.cols ++ ["功能区_L1"]) j hat3
          (firstIdxEq_serial df.cols j hj hn _
            (fun i hi => Or.inl (getD_append_left _ _ _ i (Nat.lt_trans hi hjlen)))
            hat3 (by simp)) _ i
    | some j2 =>
      have hj2 : containsSub (df.cols.getD j2 "") "功能区" = true :=
        (firstIdxWhere_spec _ df.cols j2 hl2).2.1
      have hj2len : j2 < df.cols.length := (firstIdxWhere_spec _ df.cols j2 hl2).1
      have hj2ne : j2 ≠ j := by
        intro he
        rw [he] at hj2
        rw [hj2] at hn
        cases hn
      have hat2 : (df.cols.set j2 "功能区_L2").getD j "" = df.cols.getD j "" :=
        getD_set_ne _ _ _ _ _ hj2ne
      have hpre2 : ∀ i, i < j →
          (df.cols.set j2 "功能区_L2").getD i "" = df.cols.getD i "" ∨
          (df.cols.set j2 "功能区_L2").getD i "" = "功能区_L2" := by
        intro i _
        by_cases hij : j2 = i
        · right
          subst hij
          rw [getD_set_self]
          rw [if_pos hj2len]
        · left
          exact getD_set_ne _ _ _ _ _ hij
      simp only [hl2]
      cases hpn : firstIdxWhere (fun c => containsSub c "项目名称")
          (df.cols.set j2 "功能区_L2") with
      | none =>
        simp only [hpn]
        exact cleanTail_serial _ (df.cols.set j2 "功能区_L2") j hat2
          (firstIdxEq_serial df.cols j hj hn _ hpre2 hat2 (by simp)) _ i
      | some k =>
        simp only [hpn]
        have hjlen2 : j < (df.cols.set j2 "功能区_L2").length := by
          rw [List.length_set]
          exact hjlen
        have hat3 : ((df.cols.set j2 "功能区_L2") ++ ["功能区_L1"]).getD j "" =
            df.cols.getD j "" := by
          rw [getD_append_left _ _ _ j hjlen2, hat2]
        exact cleanTail_serial _ ((df.cols.set j2 "功能区_L2") ++ ["功能区_L1"]) j hat3
          (firstIdxEq_serial df.cols j hj hn _
            (fun i hi => by
              rw [getD_append_left _ _ _ i (by rw [List.length_set]; exact Nat.lt_trans hi hjlen)]
              exact hpre2 i hi)
            hat3 (by simp)) _ i

/-- C10 witness: the amended claim applied to a concrete two-column table
whose serial cell holds the non-numeric text 总计 — the cleaned value at the
serial column is null. -/
theorem C10_witness :
    (colValues (clean_and_structure_data
        { cols := ["序号", "项目名称"],
          rows := [(0, [S "总计", S "A"])] }).1.rows 0).getD 0 Cell.empty =
      Cell.empty ∨
    ∃ n, (colValues (clean_and_structure_data
        { cols := ["序号", "项目名称"],
          rows := [(0, [S "总计", S "A"])] }).1.rows 0).getD 0 Cell.empty =
      Cell.num n :=
  C10_theorem { cols := ["序号", "项目名称"], rows := [(0, [S "总计", S "A"])] }
    0 0 (by decide) (by decide)

/-! ### Hierarchy-structuring lemmas -/

theorem map_congr_mem {α β : Type} (f g : α → β) :
    ∀ l : List α, (∀ a ∈ l, f a = g a) → l.map f = l.map g := by
  intro l
  induction l with
  | nil => intro _; rfl
  | cons a as ih =>
    intro h
    simp only [List.map_cons]
    rw [h a (List.mem_cons_self a as), ih (fun x hx => h x (List.mem_cons_of_mem _ hx))]

theorem map_const_replicate {α β : Type} (b : β) :
    ∀ l : List α, l.map (fun _ => b) = List.replicate l.length b := by
  intro l
  induction l with
  | nil => rfl
  | cons a as ih => simp [ih, List.replicate_succ]

theorem ffillFrom_replicate_empty (n : Nat) :
    ∀ c : Cell, ffillFrom c (List.replicate n Cell.empty) = List.replicate n c := by
  induction n with
  | zero => intro c; rfl
  | succ k ih =>
    intro c
    simp only [List.replicate_succ, ffillFrom, Cell.notna]
    rw [if_neg (by simp)]
    rw [ih c]

theorem zip_replicate_true_map (k : Nat) :
    ∀ rows : List (Nat × List Cell),
      (rows.zip (List.replicate rows.length true)).map
        (fun p => if p.2 then Cell.empty else p.1.2.getD k Cell.empty) =
      List.replicate rows.length Cell.empty := by
  intro rows
  induction rows with
  | nil => rfl
  | cons r rs ih =>
    rw [List.length_cons, List.replicate_succ, List.zip_cons_cons, List.map_cons,
      List.replicate_succ]
    congr 1

theorem getD_append_at {α : Type} (d v : α) :
    ∀ l : List α, (l ++ [v]).getD l.length d = v := by
  intro l
  induction l with
  | nil => rfl
  | cons a as ih =>
    simp only [List.cons_append, List.length_cons, List.getD_cons_succ]
    exact ih

theorem colValues_zip_append (w : Nat) :
    ∀ (rows : List (Nat × List Cell)) (vals : List Cell),
      (∀ r ∈ rows, r.2.length = w) →
      colValues ((rows.zip vals).map (fun p => (p.1.1, p.1.2 ++ [p.2]))) w =
        vals.take rows.length := by
  intro rows
  induction rows with
  | nil => intro vals _; rfl
  | cons r rs ih =>
    intro vals hw
    cases vals with
    | nil => rfl
    | cons v vs =>
      have hr : r.2.length = w := hw r (List.mem_cons_self r rs)
      simp only [List.zip_cons_cons, List.map_cons, colValues, List.length_cons,
        List.take_succ_cons]
      congr 1
      · rw [← hr, getD_append_at]
      · have := ih vs (fun x hx => hw x (List.mem_cons_of_mem _ hx))
        simpa [colValues] using this

theorem colValues_map_set_ne (p k : Nat) (hne : p ≠ k) (g : Nat × List Cell → Cell)
    (rows : List (Nat × List Cell)) :
    colValues (rows.map (fun r => (r.1, r.2.set p (g r)))) k = colValues rows k := by
  rw [colValues, colValues, List.map_map]
  apply map_congr_mem
  intro r _
  simp only [Function.comp]
  rw [getD_set_ne _ _ _ _ _ hne]

theorem colValues_setCol_self (j : Nat) :
    ∀ (rows : List (Nat × List Cell)) (vals : List Cell),
      vals.length = rows.length → (∀ r ∈ rows, j < r.2.length) →
      colValues (setCol rows j vals) j = vals := by
  intro rows
  induction rows with
  | nil =>
    intro vals hlen _
    cases vals with
    | nil => rfl
    | cons v vs => simp at hlen
  | cons r rs ih =>
    intro vals hlen hw
    cases vals with
    | nil => simp at hlen
    | cons v vs =>
      simp only [setCol, List.zip_cons_cons, List.map_cons, colValues]
      congr 1
      · rw [getD_set_self, if_pos (hw r (List.mem_cons_self r rs))]
      · have := ih vs (by simpa using hlen) (fun x hx => hw x (List.mem_cons_of_mem _ hx))
        simpa [setCol, colValues] using this

theorem setCol_width (w p : Nat) (vals : List Cell)
    (rows : List (Nat × List Cell)) (hw : ∀ r ∈ rows, r.2.length = w) :
    ∀ r' ∈ setCol rows p vals, r'.2.length = w := by
  intro r' hr'
  rcases List.mem_map.mp hr' with ⟨q, hq, rfl⟩
  have hq1 := (List.of_mem_zip hq).1
  simp [hw _ hq1]

theorem map_set_width (w p : Nat) (g : Nat × List Cell → Cell)
    (rows : List (Nat × List Cell)) (hw : ∀ r ∈ rows, r.2.length = w) :
    ∀ r' ∈ rows.map (fun r => (r.1, r.2.set p (g r))), r'.2.length = w := by
  intro r' hr'
  rcases List.mem_map.mp hr' with ⟨r, hr, rfl⟩
  simp [hw r hr]

theorem zip_append_width (w : Nat) (rows : List (Nat × List Cell)) (vals : List Cell)
    (hw : ∀ r ∈ rows, r.2.length = w) :
    ∀ r' ∈ (rows.zip vals).map (fun p => (p.1.1, p.1.2 ++ [p.2])),
      r'.2.length = w + 1 := by
  intro r' hr'
  rcases List.mem_map.mp hr' with ⟨q, hq, rfl⟩
  have hq1 := (List.of_mem_zip hq).1
  simp [hw _ hq1]

/-- The `errors='ignore'` pass over the five columns of the hierarchy
scenarios: the serial column is skipped by name and the appended 功能区_L1
column (position 4) ends up converted column-wise. -/
theorem applyIgnore5_colValues4 (rows : List (Nat × List Cell))
    (hw : ∀ r ∈ rows, r.2.length = 5) :
    colValues (applyIgnoreAll ["序号", "项目名称", "功能区_L2", "单价", "功能区_L1"]
      (some "序号") rows) 4 = toNumericIgnoreCol (colValues rows 4) := by
  have hr5 : List.range
      (["序号", "项目名称", "功能区_L2", "单价", "功能区_L1"] : List String).length =
      [0, 1, 2, 3, 4] := rfl
  rw [applyIgnoreAll, hr5]
  simp only [List.foldl_cons, List.foldl_nil, List.getD_cons_zero, List.getD_cons_succ,
    (by decide : ((some "序号" : Option String) == some "序号") = true),
    (by decide : ((some "序号" : Option String) == some "项目名称") = false),
    (by decide : ((some "序号" : Option String) == some "功能区_L2") = false),
    (by decide : ((some "序号" : Option String) == some "单价") = false),
    (by decide : ((some "序号" : Option String) == some "功能区_L1") = false)]
  simp only [show ((false : Bool) = true) = False from by simp,
    show ((true : Bool) = true) = True from by simp, if_true, if_false]
  have len1 : (toNumericIgnoreCol (colValues rows 1)).length = rows.length := by
    rw [toNumericIgnoreCol_length, colValues_length]
  have hw1 := setCol_width 5 1 (toNumericIgnoreCol (colValues rows 1)) rows hw
  have lenX1 : (setCol rows 1 (toNumericIgnoreCol (colValues rows 1))).length =
      rows.length := by
    rw [setCol_length, len1, Nat.min_self]
  set X1 := setCol rows 1 (toNumericIgnoreCol (colValues rows 1)) with hX1
  have len2 : (toNumericIgnoreCol (colValues X1 2)).length = X1.length := by
    rw [toNumericIgnoreCol_length, colValues_length]
  have hw2 := setCol_width 5 2 (toNumericIgnoreCol (colValues X1 2)) X1 hw1
  have lenX2 : (setCol X1 2 (toNumericIgnoreCol (colValues X1 2))).length = X1.length := by
    rw [setCol_length, len2, Nat.min_self]
  set X2 := setCol X1 2 (toNumericIgnoreCol (colValues X1 2)) with hX2
  have len3 : (toNumericIgnoreCol (colValues X2 3)).length = X2.length := by
    rw [toNumericIgnoreCol_length, colValues_length]
  have hw3 := setCol_width 5 3 (toNumericIgnoreCol (colValues X2 3)) X2 hw2
  have lenX3 : (setCol X2 3 (toNumericIgnoreCol (colValues X2 3))).length = X2.length := by
    rw [setCol_length, len3, Nat.min_self]
  set X3 := setCol X2 3 (toNumericIgnoreCol (colValues X2 3)) with hX3
  have len4 : (toNumericIgnoreCol (colValues X3 4)).length = X3.length := by
    rw [toNumericIgnoreCol_length, colValues_length]
  have hw3' : ∀ r ∈ X3, 4 < r.2.length := by
    intro r hr
    rw [setCol_width 5 3 _ X2 hw2 r hr]
    omega
  rw [colValues_setCol_self 4 X3 _ len4 hw3']
  have e3 : colValues X3 4 = colValues X2 4 :=
    colValues_setCol_ne 3 4 (by omega) X2 _ len3
  have e2 : colValues X2 4 = colValues X1 4 :=
    colValues_setCol_ne 2 4 (by omega) X1 _ len2
  have e1 : colValues X1 4 = colValues rows 4 :=
    colValues_setCol_ne 1 4 (by omega) rows _ len1
  rw [e3, e2, e1]

theorem toNumericIgnoreCol_str_cjk (s : String) (rest : List Cell)
    (h : (parseNumCell (Cell.str s)).isSome = false) :
    toNumericIgnoreCol (Cell.str s :: rest) = Cell.str s :: rest := by
  unfold toNumericIgnoreCol
  rw [List.all_cons]
  have hh : (!(Cell.str s).notna || (parseNumCell (Cell.str s)).isSome) = false := by
    rw [h]
    rfl
  rw [hh, Bool.false_and, if_neg (by simp)]

/-! ### C6 -/

/-- C6: in hierarchy structuring, L1 is seeded from the section label of
summary rows (null on data rows) and forward-filled until the next summary
row overwrites it: after a summary row labelled 地面 the three following
data rows carry L1 = 地面, and after the next summary row labelled 天花
every following data row carries L1 = 天花 (the column is created, so
`l1_column` is reported in the structuring metadata). -/
theorem C6_theorem (n1 n2 n3 : Int) (ns : List Int) :
    (clean_and_structure_data (c6df n1 n2 n3 ns)).2.l1_column = some "功能区_L1" ∧
    colValues (clean_and_structure_data (c6df n1 n2 n3 ns)).1.rows 4 =
      [S "地面", S "地面", S "地面", S "地面", S "天花"] ++
        List.replicate ns.length (S "天花") := by
  have hcols : (c6df n1 n2 n3 ns).cols = ["序号", "项目名称", "功能区", "单价"] := rfl
  have hserial : firstIdxWhere (fun c => containsSub c "序号")
      ["序号", "项目名称", "功能区", "单价"] = some 0 := by decide
  have hl2 : firstIdxWhere (fun c => containsSub c "功能区")
      ["序号", "项目名称", "功能区", "单价"] = some 2 := by decide
  have hset : (["序号", "项目名称", "功能区", "单价"] : List String).set 2 "功能区_L2" =
      ["序号", "项目名称", "功能区_L2", "单价"] := rfl
  have hpn : firstIdxWhere (fun c => containsSub c "项目名称")
      ["序号", "项目名称", "功能区_L2", "单价"] = some 1 := by decide
  have hser4 : firstIdxWhere (fun c => c == "序号")
      ["序号", "项目名称", "功能区_L2", "单价", "功能区_L1"] = some 0 := by decide
  have hwidth : ∀ r ∈ (c6df n1 n2 n3 ns).rows, r.2.length = 4 := by
    intro r hr
    rcases List.mem_append.mp hr with h | h
    · fin_cases h <;> rfl
    · rcases List.mem_map.mp h with ⟨p, _, rfl⟩
      rfl
  have hkeep : dropAllNaRows (c6df n1 n2 n3 ns).rows = (c6df n1 n2 n3 ns).rows := by
    apply List.filter_eq_self.mpr
    intro r hr
    rcases List.mem_append.mp hr with h | h
    · fin_cases h <;> rfl
    · rcases List.mem_map.mp h with ⟨p, _, rfl⟩
      rfl
  have hnonempty : ((c6df n1 n2 n3 ns).rows).isEmpty = false := rfl
  have hflags : isDataFlags (some 0) (c6df n1 n2 n3 ns).rows =
      [false, true, true, true, false] ++ List.replicate ns.length true := by
    simp only [isDataFlags, c6df, List.map_append, List.map_map]
    congr 1
    rw [map_congr_mem
        ((fun r : Nat × List Cell => (parseNumCell (r.2.getD 0 Cell.empty)).isSome) ∘
          (fun p : Nat × Int => ((5 + p.1 : Nat), c6row p.2)))
        (fun _ => true) ns.enum (fun p _ => rfl),
      map_const_replicate, List.enum_length]
  have hlen' : (ns.enum.map (fun p => ((5 + p.1 : Nat), c6row p.2))).length = ns.length := by
    simp
  have hseed : l1Seed 1 (c6df n1 n2 n3 ns).rows
      ([false, true, true, true, false] ++ List.replicate ns.length true) =
      [S "地面", E, E, E, S "天花"] ++ List.replicate ns.length Cell.empty := by
    simp only [l1Seed, c6df, List.cons_append, List.nil_append, List.zip_cons_cons,
      List.map_cons]
    congr 1
    congr 1
    congr 1
    congr 1
    congr 1
    rw [← hlen', zip_replicate_true_map 1, hlen']
  have hffill : ffill ([S "地面", E, E, E, S "天花"] ++
      List.replicate ns.length Cell.empty) =
      [S "地面", S "地面", S "地面", S "地面", S "天花"] ++
        List.replicate ns.length (S "天花") := by
    simp [ffill, ffillFrom, Cell.notna, ffillFrom_replicate_empty, List.cons_append, S, E]
  have hl1col : colValues (addL1 (some 1)
      ([false, true, true, true, false] ++ List.replicate ns.length true)
      (c6df n1 n2 n3 ns).rows) 4 =
      [S "地面", S "地面", S "地面", S "地面", S "天花"] ++
        List.replicate ns.length (S "天花") := by
    simp only [addL1]
    rw [hseed, hffill, colValues_zip_append 4 _ _ hwidth]
    have hrl : (c6df n1 n2 n3 ns).rows.length = 5 + ns.length := by
      simp [c6df]
      omega
    rw [hrl]
    rw [List.take_of_length_le (by simp; omega)]
  have hw3 : ∀ r' ∈ addL1 (some 1) ([false, true, true, true, false] ++
      List.replicate ns.length true) (c6df n1 n2 n3 ns).rows, r'.2.length = 5 := by
    intro r' hr'
    simp only [addL1] at hr'
    exact zip_append_width 4 _ _ hwidth r' hr'
  simp only [clean_and_structure_data]
  rw [hkeep, hcols, hserial, hl2]
  simp only [hnonempty, show ((false : Bool) = true) = False from by simp, if_false,
    Option.map_some', List.getD_cons_zero, hset, hpn]
  simp only [List.cons_append, List.nil_append]
  constructor
  · trivial
  · simp only [coerceSerial, hser4]
    rw [hflags]
    rw [colValues_resetIndex]
    rw [applyIgnore5_colValues4 _ (map_set_width 5 0 _ _ hw3)]
    rw [colValues_map_set_ne 0 4 (by omega)]
    rw [hl1col]
    simp only [List.cons_append, List.nil_append]
    exact toNumericIgnoreCol_str_cjk "地面" _ (by decide)

/-! ### Forward-fill nullability lemmas -/

theorem ffillFrom_ne_empty (c : Cell) (hc : c ≠ Cell.empty) :
    ∀ l : List Cell, ∀ x ∈ ffillFrom c l, x ≠ Cell.empty := by
  intro l
  induction l generalizing c with
  | nil => intro x hx; cases hx
  | cons d ds ih =>
    intro x hx
    rw [ffillFrom] at hx
    rcases List.mem_cons.mp hx with h | h
    · subst h
      by_cases hd : d.notna = true
      · rw [if_pos hd]
        cases d with
        | empty => cases hd
        | str s => intro he; cases he
        | num n => intro he; cases he
      · rw [if_neg hd]
        exact hc
    · by_cases hd : d.notna = true
      · rw [if_pos hd] at h
        refine ih d ?_ x h
        cases d with
        | empty => cases hd
        | str s => intro he; cases he
        | num n => intro he; cases he
      · rw [if_neg hd] at h
        exact ih c hc x h

theorem ffill_replicate_prefix (rest : List Cell) :
    ∀ k : Nat, ffillFrom Cell.empty (List.replicate k Cell.empty ++ rest) =
      List.replicate k Cell.empty ++ ffillFrom Cell.empty rest := by
  intro k
  induction k with
  | zero => rfl
  | succ k' ih =>
    simp only [List.replicate_succ, List.cons_append, ffillFrom]
    rw [if_neg (by simp [Cell.notna])]
    congr 1
    try exact ih

theorem getD_replicate_lt {α : Type} (a d : α) :
    ∀ (n i : Nat), i < n → (List.replicate n a).getD i d = a := by
  intro n
  induction n with
  | zero => intro i h; cases h
  | succ n' ih =>
    intro i h
    cases i with
    | zero => rfl
    | succ i' =>
      rw [List.replicate_succ, List.getD_cons_succ]
      exact ih i' (Nat.lt_of_succ_lt_succ h)

theorem getD_append_right_own {α : Type} (d : α) :
    ∀ (a b : List α) (i : Nat), a.length ≤ i →
      (a ++ b).getD i d = b.getD (i - a.length) d := by
  intro a
  induction a with
  | nil => intro b i _; rfl
  | cons x xs ih =>
    intro b i h
    cases i with
    | zero => cases h
    | succ i' =>
      simp only [List.cons_append, List.getD_cons_succ, List.length_cons]
      rw [ih b i' (Nat.le_of_succ_le_succ h)]
      congr 1
      omega

theorem getD_mem_of_lt {α : Type} (d : α) :
    ∀ (l : List α) (i : Nat), i < l.length → l.getD i d ∈ l := by
  intro l
  induction l with
  | nil => intro i h; cases h
  | cons x xs ih =>
    intro i h
    cases i with
    | zero => exact List.mem_cons_self x xs
    | succ i' =>
      rw [List.getD_cons_succ]
      exact List.mem_cons_of_mem _ (ih i' (Nat.lt_of_succ_lt_succ h))

theorem coerce_map_empty_iff :
    ∀ l : List Cell, l.all (fun c => !c.notna || (parseNumCell c).isSome) = true →
      ∀ i, ((l.map coerceCell).getD i Cell.empty = Cell.empty ↔
        l.getD i Cell.empty = Cell.empty) := by
  intro l
  induction l with
  | nil => intro _ i; exact Iff.rfl
  | cons c cs ih =>
    intro hall i
    rw [List.all_cons, Bool.and_eq_true] at hall
    cases i with
    | zero =>
      simp only [List.map_cons, List.getD_cons_zero]
      cases c with
      | empty => simp [coerceCell, parseNumCell]
      | str s =>
        have hsome : (parseNumCell (Cell.str s)).isSome = true := by
          simpa [Cell.notna] using hall.1
        rcases Option.isSome_iff_exists.mp hsome with ⟨n, hn⟩
        simp [coerceCell, hn]
      | num n => simp [coerceCell, parseNumCell]
    | succ i' =>
      simp only [List.map_cons, List.getD_cons_succ]
      exact ih hall.2 i'

theorem toNumericIgnore_empty_iff (l : List Cell) (i : Nat) :
    (toNumericIgnoreCol l).getD i Cell.empty = Cell.empty ↔
      l.getD i Cell.empty = Cell.empty := by
  unfold toNumericIgnoreCol
  split
  · exact coerce_map_empty_iff l (by assumption) i
  · exact Iff.rfl

/-- The seed of the L1 column, with the data-row flags fused in: one pass
over the rows. -/
theorem l1Seed_fused (k j : Nat) :
    ∀ rows : List (Nat × List Cell),
      l1Seed k rows (isDataFlags (some j) rows) =
        rows.map (fun r => if (parseNumCell (r.2.getD j Cell.empty)).isSome
          then Cell.empty else r.2.getD k Cell.empty) := by
  intro rows
  induction rows with
  | nil => rfl
  | cons r rs ih =>
    simp only [l1Seed, isDataFlags, List.map_cons, List.zip_cons_cons] at ih ⊢
    congr 1

/-! ### C7 (amended) -/

/-- C7 (amended): after hierarchy structuring the L1 value of a surviving
row is null for every row before the first summary row (forward fill has
nothing to propagate there) and non-null for every row at or after the
first summary row carrying a non-null 项目名称 label; all rows survive. -/
theorem C7_theorem (ms : List Int) (ts : List (Cell × Cell × Cell × Cell)) (i : Nat)
    (H : ∀ t ∈ ts, (genRow t).any Cell.notna = true) :
    (clean_and_structure_data (c7df ms ts)).2.l1_column = some "功能区_L1" ∧
    (clean_and_structure_data (c7df ms ts)).1.rows.length = ms.length + 1 + ts.length ∧
    (i < ms.length →
      (colValues (clean_and_structure_data (c7df ms ts)).1.rows 4).getD i Cell.empty =
        Cell.empty) ∧
    (ms.length ≤ i → i < ms.length + 1 + ts.length →
      (colValues (clean_and_structure_data (c7df ms ts)).1.rows 4).getD i Cell.empty ≠
        Cell.empty) := by
  have hcols : (c7df ms ts).cols = ["序号", "项目名称", "功能区", "单价"] := rfl
  have hserial : firstIdxWhere (fun c => containsSub c "序号")
      ["序号", "项目名称", "功能区", "单价"] = some 0 := by decide
  have hl2 : firstIdxWhere (fun c => containsSub c "功能区")
      ["序号", "项目名称", "功能区", "单价"] = some 2 := by decide
  have hset : (["序号", "项目名称", "功能区", "单价"] : List String).set 2 "功能区_L2" =
      ["序号", "项目名称", "功能区_L2", "单价"] := rfl
  have hpn : firstIdxWhere (fun c => containsSub c "项目名称")
      ["序号", "项目名称", "功能区_L2", "单价"] = some 1 := by decide
  have hser4 : firstIdxWhere (fun c => c == "序号")
      ["序号", "项目名称", "功能区_L2", "单价", "功能区_L1"] = some 0 := by decide
  have hwidth : ∀ r ∈ (c7df ms ts).rows, r.2.length = 4 := by
    intro r hr
    rcases List.mem_append.mp hr with h | h
    · rcases List.mem_append.mp h with hP | hm
      · rcases List.mem_map.mp hP with ⟨p, _, rfl⟩
        rfl
      · rcases List.mem_cons.mp hm with he | hff
        · subst he
          rfl
        · cases hff
    · rcases List.mem_map.mp h with ⟨p, _, rfl⟩
      rfl
  have hkeep : dropAllNaRows (c7df ms ts).rows = (c7df ms ts).rows := by
    apply List.filter_eq_self.mpr
    intro r hr
    rcases List.mem_append.mp hr with h | h
    · rcases List.mem_append.mp h with hP | hm
      · rcases List.mem_map.mp hP with ⟨p, _, rfl⟩
        rfl
      · rcases List.mem_cons.mp hm with he | hff
        · subst he
          rfl
        · cases hff
    · rcases List.mem_map.mp h with ⟨p, hp, rfl⟩
      exact H p.2 (snd_mem_of_mem_enum hp)
  have hrowslen : (c7df ms ts).rows.length = ms.length + 1 + ts.length := by
    simp [c7df]
    omega
  have hseed : l1Seed 1 (c7df ms ts).rows (isDataFlags (some 0) (c7df ms ts).rows) =
      (List.replicate ms.length Cell.empty ++ [S "地面"]) ++
        (ts.enum.map (fun p =>
            ((ms.length + 1 + p.1 : Nat), genRow p.2))).map
          (fun r => if (parseNumCell (r.2.getD 0 Cell.empty)).isSome
            then Cell.empty else r.2.getD 1 Cell.empty) := by
    rw [l1Seed_fused]
    simp only [c7df, List.map_append, List.map_cons, List.map_nil, List.map_map]
    congr 1
    congr 1
    · rw [map_congr_mem
          ((fun r : Nat × List Cell => if (parseNumCell (r.2.getD 0 Cell.empty)).isSome
            then Cell.empty else r.2.getD 1 Cell.empty) ∘
            (fun p : Nat × Int => (p.1, c6row p.2)))
          (fun _ => Cell.empty) ms.enum (fun p _ => rfl),
        map_const_replicate, List.enum_length]
  have hffill : ∀ Ttail : List Cell,
      ffill (List.replicate ms.length Cell.empty ++ ([S "地面"] ++ Ttail)) =
        List.replicate ms.length Cell.empty ++
          (S "地面" :: ffillFrom (S "地面") Ttail) := by
    intro T
    rw [ffill, ffill_replicate_prefix]
    congr 1
  have hl1col : colValues (addL1 (some 1) (isDataFlags (some 0) (c7df ms ts).rows)
      (c7df ms ts).rows) 4 =
      List.replicate ms.length Cell.empty ++
        (S "地面" :: ffillFrom (S "地面")
          ((ts.enum.map (fun p => ((ms.length + 1 + p.1 : Nat), genRow p.2))).map
            (fun r => if (parseNumCell (r.2.getD 0 Cell.empty)).isSome
              then Cell.empty else r.2.getD 1 Cell.empty))) := by
    simp only [addL1]
    rw [hseed, List.append_assoc, hffill _, colValues_zip_append 4 _ _ hwidth, hrowslen]
    rw [List.take_of_length_le
      (by simp [ffillFrom_length]; omega)]
  have hw3 : ∀ r' ∈ addL1 (some 1) (isDataFlags (some 0) (c7df ms ts).rows)
      (c7df ms ts).rows, r'.2.length = 5 := by
    intro r' hr'
    simp only [addL1] at hr'
    exact zip_append_width 4 _ _ hwidth r' hr'
  have hne : ((c7df ms ts).rows).isEmpty = false := by
    cases hc : (c7df ms ts).rows with
    | nil =>
      exfalso
      have hlen := hrowslen
      rw [hc] at hlen
      simp at hlen
      omega
    | cons a as => rfl
  simp only [clean_and_structure_data]
  rw [hkeep, hcols, hserial, hl2]
  simp only [hne, show ((false : Bool) = true) = False from by simp, if_false,
    Option.map_some', List.getD_cons_zero, hset, hpn]
  simp only [List.cons_append, List.nil_append]
  refine ⟨by trivial, ?_, ?_, ?_⟩
  · rw [resetIndex_length, applyIgnoreAll_length, coerceSerial_length,
      addL1_length _ _ _ (isDataFlags_length _ _), hrowslen]
  · intro hi
    simp only [coerceSerial, hser4]
    rw [colValues_resetIndex, applyIgnore5_colValues4 _ (map_set_width 5 0 _ _ hw3),
      colValues_map_set_ne 0 4 (by omega), hl1col]
    rw [toNumericIgnore_empty_iff]
    rw [getD_append_left _ _ _ i (by simp; omega)]
    exact getD_replicate_lt _ _ _ i hi
  · intro h1 h2
    simp only [coerceSerial, hser4]
    rw [colValues_resetIndex, applyIgnore5_colValues4 _ (map_set_width 5 0 _ _ hw3),
      colValues_map_set_ne 0 4 (by omega), hl1col]
    intro heq
    rw [toNumericIgnore_empty_iff] at heq
    rw [getD_append_right_own _ _ _ i (by simp; omega)] at heq
    have hlt : i - (List.replicate ms.length Cell.empty).length <
        (S "地面" :: ffillFrom (S "地面")
          ((ts.enum.map (fun p => ((ms.length + 1 + p.1 : Nat), genRow p.2))).map
            (fun r => if (parseNumCell (r.2.getD 0 Cell.empty)).isSome
              then Cell.empty else r.2.getD 1 Cell.empty))).length := by
      simp [ffillFrom_length]
      omega
    have hmem := getD_mem_of_lt Cell.empty _ _ hlt
    rw [heq] at hmem
    rcases List.mem_cons.mp hmem with hh | hh
    · cases hh
    · exact ffillFrom_ne_empty (S "地面") (by intro he; cases he) _ Cell.empty hh rfl

/-- C7 witness: the amended claim applied to a concrete table with one data
row above the first summary row — that row's L1 is null while the row after
the summary row has non-null L1. -/
theorem C7_witness :
    (colValues (clean_and_structure_data (c7df [7]
      [(S "小计", S "墙面", E, E)])).1.rows 4).getD 0 Cell.empty = Cell.empty ∧
    (colValues (clean_and_structure_data (c7df [7]
      [(S "小计", S "墙面", E, E)])).1.rows 4).getD 2 Cell.empty ≠ Cell.empty := by
  refine ⟨(C7_theorem [7] [(S "小计", S "墙面", E, E)] 0 (by decide)).2.2.1 (by decide),
    (C7_theorem [7] [(S "小计", S "墙面", E, E)] 2 (by decide)).2.2.2 (by decide)
      (by decide)⟩

/-! ### Numeric cell text and argmax lemmas for the C3 scenario -/

theorem natDigits_digits : ∀ (fuel n : Nat), ∀ c ∈ natDigits fuel n, c.isDigit = true := by
  intro fuel
  induction fuel with
  | zero => intro n c hc; cases hc
  | succ f ih =>
    intro n c hc
    have hd : ∀ d, d < 10 → (Nat.digitChar d).isDigit = true := by decide
    rw [natDigits] at hc
    by_cases h : n < 10
    · rw [if_pos h] at hc
      rcases List.mem_singleton.mp hc with rfl
      exact hd n h
    · rw [if_neg h] at hc
      rcases List.mem_append.mp hc with h' | h'
      · exact ih (n / 10) c h'
      · rcases List.mem_singleton.mp h' with rfl
        exact hd (n % 10) (Nat.mod_lt n (by norm_num))

theorem pyIntToString_chars (m : Int) :
    ∀ c ∈ (pyIntToString m).toList, c.isDigit = true ∨ c = '-' := by
  cases m with
  | ofNat k =>
    intro c hc
    left
    exact natDigits_digits (k + 1) k c hc
  | negSucc k =>
    intro c hc
    rcases List.mem_cons.mp hc with rfl | h
    · right; rfl
    · left; exact natDigits_digits (k + 2) (k + 1) c h

theorem containsChars_false_of_head (k : Char) (ps : List Char) :
    ∀ l : List Char, (∀ c ∈ l, (c == k) = false) → containsChars (k :: ps) l = false := by
  intro l
  induction l with
  | nil => intro _; rfl
  | cons c cs ih =>
    intro h
    rw [containsChars, beginsWith, h c (List.mem_cons_self c cs), Bool.false_and,
      Bool.false_or]
    exact ih (fun x hx => h x (List.mem_cons_of_mem _ hx))

theorem beq_false_of_digit_or_minus (k : Char) (hk1 : k.isDigit = false)
    (hk2 : (('-' : Char) == k) = false) (c : Char)
    (hc : c.isDigit = true ∨ c = '-') : (c == k) = false := by
  cases hbe : (c == k) with
  | false => rfl
  | true =>
    have hck : c = k := eq_of_beq hbe
    rcases hc with hd | hm
    · rw [hck] at hd
      rw [hd] at hk1
      cases hk1
    · rw [hm] at hck
      rw [← hck] at hk2
      exact absurd hk2 (by decide)

theorem num_string_no_keyword (m : Int) :
    ∀ p ∈ keywords, containsSub (pyIntToString m) p.1 = false := by
  intro p hp
  fin_cases hp <;>
    (unfold containsSub
     apply containsChars_false_of_head
     intro c hc
     exact beq_false_of_digit_or_minus _ (by decide) (by decide) c
       (pyIntToString_chars m c hc))

theorem cellScore_num_nonpos (m : Int) : cellScore (Cell.num m) ≤ 0 := by
  simp only [cellScore, Cell.toStr, Cell.isStr]
  have hmap : keywords.map
      (fun p => if containsSub (pyIntToString m) p.1 then p.2 else 0) =
      keywords.map (fun _ => (0 : Int)) := by
    apply map_congr_mem
    intro p hp
    rw [num_string_no_keyword m p hp]
    simp
  rw [hmap, map_const_replicate]
  have hz : (List.replicate keywords.length (0 : Int)).sum = 0 := by
    simp [List.sum_replicate]
  rw [hz, ratSub_eq, ratAdd_eq, mkRat_one_den]
  simp only [show ((false : Bool) = true) = False from by simp, if_false]
  by_cases hl : (pyIntToString m).length > 50
  · rw [if_pos hl]
    norm_num
  · rw [if_neg hl]
    norm_num

theorem c3row_score_le (m : Int) : get_row_score (c3DataRow m) ≤ 4 := by
  have hfilter : (c3DataRow m).filter Cell.notna = c3DataRow m := by
    apply List.filter_eq_self.mpr
    intro c hc
    fin_cases hc <;> rfl
  simp only [get_row_score]
  rw [hfilter]
  rw [show (c3DataRow m).length = 4 from rfl, if_neg (by norm_num)]
  have hmap : (c3DataRow m).map cellScore =
      [cellScore (Cell.num m), cellScore (S "B"), cellScore (Cell.num 1),
        cellScore (Cell.num 2)] := rfl
  rw [hmap]
  have hb : cellScore (S "B") = mkRat 1 2 := by decide
  have h1 : cellScore (Cell.num 1) = 0 := by decide
  have h2 : cellScore (Cell.num 2) = 0 := by decide
  have hm := cellScore_num_nonpos m
  rw [ratDivNat_eq]
  simp only [sumRat, ratAdd_eq, hb, h1, h2]
  rw [Rat.mkRat_eq_div]
  rw [div_le_iff (by norm_num : (0 : Rat) < (4 : Nat))]
  push_cast
  linarith

theorem foldl_argmaxStep_fixed :
    ∀ (l : List (Nat × Rat)) (b : Nat × Rat), (∀ p ∈ l, ¬ b.2 < p.2) →
      l.foldl argmaxStep b = b := by
  intro l
  induction l with
  | nil => intro b _; rfl
  | cons p ps ih =>
    intro b hb
    rw [List.foldl_cons]
    have hstep : argmaxStep b p = b := by
      rw [argmaxStep, if_neg (hb p (List.mem_cons_self p ps))]
    rw [hstep]
    exact ih b (fun q hq => hb q (List.mem_cons_of_mem _ hq))

theorem argmaxIdx_zero (x : Rat) (xs : List Rat) (h : ∀ y ∈ xs, ¬ x < y) :
    argmaxIdx (x :: xs) = 0 := by
  rw [argmaxIdx]
  rw [foldl_argmaxStep_fixed xs.enum (0, x) (fun p hp => h p.2 (snd_mem_of_mem_enum hp))]

/-! ### C3 (amended) -/

/-- C3 (amended): the header block is never extended or shortened by
content — it is the fixed three-row slice starting at the header start row.
On `c3Grid ds` (two header rows, a first data row at row 2, then `ds`
further data rows) the rule-based finder locates row 0, the block swallows
the data row at row 2 into the merged column names (`序号 1`,
`项目名称 个 A`, ...), and the returned table holds only the `ds` rows from
row 3 onward. -/
theorem C3_theorem (ds : List Int) :
    (intelligent_read_excel none none (Except.ok (c3Grid ds))).2.header_row = some 0 ∧
    (intelligent_read_excel none none (Except.ok (c3Grid ds))).2.columns_found =
      some ["序号 1", "项目名称 个 A", "单价 元 10", "合价 元 10"] ∧
    ((intelligent_read_excel none none (Except.ok (c3Grid ds))).1.map
      (fun t => t.rows.length)) = some ds.length := by
  have hsem : find_header_row_semantic none (c3Grid ds) 20 = -1 := rfl
  have hrule : find_header_row_rule_based (c3Grid ds) 20 = Int.ofNat 0 := by
    unfold find_header_row_rule_based
    have htake : (c3Grid ds).take 20 = exGridC3 ++ (ds.map c3DataRow).take 17 := by
      rw [c3Grid, List.take_append_eq_append_take,
        List.take_of_length_le (by decide : exGridC3.length ≤ 20)]
      rfl
    rw [htake, List.map_append]
    have hhead : List.map get_row_score exGridC3 = [4, mkRat 1 2, mkRat 1 8] := by decide
    rw [hhead]
    have htail : ∀ y ∈ List.map get_row_score ((ds.map c3DataRow).take 17),
        ¬ (4 : Rat) < y := by
      intro y hy
      rcases List.mem_map.mp hy with ⟨r, hr, rfl⟩
      have hr' : r ∈ ds.map c3DataRow := List.take_subset 17 _ hr
      rcases List.mem_map.mp hr' with ⟨m, _, rfl⟩
      have := c3row_score_le m
      intro hcon
      exact absurd this (not_le.mpr hcon)
    have hargmax : argmaxIdx ((4 : Rat) :: (mkRat 1 2 :: mkRat 1 8 ::
        List.map get_row_score ((ds.map c3DataRow).take 17))) = 0 := by
      apply argmaxIdx_zero
      intro y hy
      rcases List.mem_cons.mp hy with rfl | hy'
      · decide
      rcases List.mem_cons.mp hy' with rfl | hy''
      · decide
      · exact htail y hy''
    simp only [List.cons_append, List.nil_append]
    rw [hargmax]
    rw [show (((4 : Rat) :: (mkRat 1 2 :: mkRat 1 8 ::
      List.map get_row_score ((ds.map c3DataRow).take 17))).isEmpty) = false from rfl]
    rw [List.getD_cons_zero]
    simp only [show ((false : Bool) = true) = False from by simp, if_false]
    rw [if_neg (by norm_num : ¬ (4 : Rat) < 2)]
  have hblock : headerBlock (c3Grid ds) 0 = exGridC3 := rfl
  have hcf : dedupColumns (mergeCols exGridC3) =
      ["序号 1", "项目名称 个 A", "单价 元 10", "合价 元 10"] := by decide
  simp only [intelligent_read_excel, hsem, hrule]
  simp only [show (((-1 : Int) == -1) : Bool) = true from rfl, if_true,
    show ((Int.ofNat 0 == (-1 : Int)) : Bool) = false from rfl,
    show ((false : Bool) = true) = False from by simp, if_false]
  simp only [show (Int.ofNat 0).toNat = 0 from rfl]
  simp only [hblock, hcf]
  refine ⟨trivial, trivial, ?_⟩
  simp only [Option.map_some']
  rw [clean_rows_length]
  have hkeepd : dropAllNaRows (((c3Grid ds).enum.drop
      (0 + exGridC3.length)).map (fun p => (p.1,
        padRow (["序号 1", "项目名称 个 A", "单价 元 10", "合价 元 10"] :
          List String).length p.2))) =
      ((c3Grid ds).enum.drop (0 + exGridC3.length)).map (fun p => (p.1,
        padRow (["序号 1", "项目名称 个 A", "单价 元 10", "合价 元 10"] :
          List String).length p.2)) := by
    apply List.filter_eq_self.mpr
    intro r hr
    rcases List.mem_map.mp hr with ⟨p, hp, rfl⟩
    have hg : p.2 ∈ c3Grid ds := snd_mem_of_mem_enum (List.mem_of_mem_drop hp)
    rcases List.mem_append.mp hg with h | h
    · simp only [exGridC3, List.mem_cons, List.not_mem_nil, or_false] at h
      rcases h with h | h | h <;> rw [h] <;> rfl
    · rcases List.mem_map.mp h with ⟨m, _, he⟩
      rw [← he]
      rfl
  rw [hkeepd]
  simp only [List.length_map, List.length_drop, List.enum_length]
  rw [show (c3Grid ds).length = 3 + ds.length from by
      simp only [c3Grid, exGridC3, List.length_append, List.length_cons,
        List.length_nil, List.length_map],
    show exGridC3.length = 3 from rfl]
  congr 1
  omega
